import Mathlib

/-!
Shallow embedding of `packages/core/src/render3/instructions/listener.ts`:
the Ivy event-listener binding instruction (`listenerInternal` with its
element block and directive-output loop, `findExistingListener`,
`executeListenerWithErrorHandling` and the closure produced by
`wrapListener`) together with the runtime state the instruction mutates
(the per-view cleanup list `lView[CLEANUP]`, the per-template cleanup list
`tView.cleanup`, the coalesced `__ngNextListenerFn__` chain) and the
external collaborators it calls out to (the renderer through `listen` /
`addEventListener`, `markViewDirty`, `handleError`, directive output
`subscribe`), which are recorded as an observable event log.

Functions and other JS objects are represented by numeric identifiers.
The `__ngNextListenerFn__` field that the source attaches directly onto
handler function objects is modelled as a finite map from identifiers to
identifiers, updated in exactly the places the source assigns that field.
-/

namespace NgListener

/-- JS values as far as this module observes them: the dispatch logic only
tests a handler result for strict equality with `false`
(`result === false`), so a small closed universe of values suffices. -/
inductive JSVal where
  | jsFalse
  | jsTrue
  | jsUndefined
  | jsNull
  | jsNum (n : Int)
  | jsStr (s : String)
deriving DecidableEq, Repr

/-- Outcome of running a user handler body: either a returned value or a
thrown error. User handler bodies are external to this module, so a handler
identifier is interpreted through an environment of type `Nat → HOutcome`. -/
inductive HOutcome where
  | ret (v : JSVal)
  | thrown (msg : String)
deriving DecidableEq, Repr

/-- Result value of `executeListenerWithErrorHandling`: the returned value,
or `false` when the handler threw (the catch branch returns `false`). -/
def outcomeVal : HOutcome → JSVal
  | .ret v => v
  | .thrown _ => JSVal.jsFalse

/-- Observable external calls made on the dispatch path of the closure built
by `wrapListener`, in chronological order: `markViewDirty(view)`, invocation
of a handler function, `handleError(lView, error)`, `e.preventDefault()` and
`e.returnValue = false`. -/
inductive Ev where
  | mark (view : Nat)
  | invoke (fn : Nat)
  | errorHandled (view : Nat) (msg : String)
  | preventDefault
  | setReturnValueFalse
deriving DecidableEq, Repr

/-- Modelled from the declarations the source imports
(`interfaces/node.ts`, outside `src/`): the static node kinds. The source
attaches native listeners only on `Element` nodes and dev-asserts that the
current node is an `Element`, `Container` or `ElementContainer`. -/
inductive TNodeType where
  | Container
  | Projection
  | View
  | Element
  | ElementContainer
  | IcuContainer
deriving DecidableEq, Repr

/-- Values stored in the per-template cleanup array `tView.cleanup`: event
names (strings), node indices / cleanup indices (numbers), capture flags
(booleans), and functions (target getters, destroy hooks) given by id. -/
inductive TVal where
  | str (s : String)
  | num (n : Int)
  | bool (b : Bool)
  | fn (id : Nat)
deriving DecidableEq, Repr

/-- First argument of a procedural `renderer.listen` call: either a global
target name (`resolved.name`) or an element reference. -/
inductive TargetArg where
  | byName (s : String)
  | byRef (n : Nat)
deriving DecidableEq, Repr

/-- Record of one `renderer.listen(target, eventName, fn)` call. -/
structure ListenCall where
  target : TargetArg
  eventName : String
  fn : Nat
deriving DecidableEq, Repr

/-- Record of one direct `target.addEventListener(eventName, fn, capture)`
call on the non-procedural path. -/
structure AddEventCall where
  target : Nat
  eventName : String
  fn : Nat
  capture : Bool
deriving DecidableEq, Repr

/-- Record of one `output.subscribe(fn)` call: the identity of the output
stream object, the function subscribed, and the returned subscription. -/
structure SubCall where
  obj : Nat
  fn : Nat
  handle : Nat
deriving DecidableEq, Repr

/-- Result of `eventTargetResolver(native)`: an optional alternate target
and an optional symbolic name (`resolved.target`, `resolved.name`). -/
structure ResolvedTarget where
  target : Option Nat
  name : Option String
deriving DecidableEq, Repr

/-- What `directiveInstance[minifiedName]` looks like to this module: the
object identity of the output stream and whether `isObservable` holds. -/
structure OutputVal where
  isObs : Bool
  objId : Nat
deriving DecidableEq, Repr

/-- One property-alias triple produced by `generatePropertyAliases` for an
output: the directive index in `lView`, the public name, and the minified
property name (the flat stride-3 array of the source, as a record list). -/
structure OutputProp where
  dirIndex : Nat
  publicName : String
  minifiedName : String
deriving DecidableEq, Repr

/-- Closure record for one call of `wrapListener`: the values it closes
over (`tNode.index`, the component flag of `tNode.flags`, the owning
`lView`, the wrapped handler) plus the `wrapWithPreventDefault` argument.
`id` is the identity of the returned closure
`wrapListenerIn_markDirtyAndPreventDefault`. -/
structure WrapperRec where
  id : Nat
  tNodeIndex : Nat
  tNodeIsComponent : Bool
  lViewId : Nat
  inner : Nat
  wrapWithPreventDefault : Bool
deriving DecidableEq, Repr

/-- Ambient inputs of `listenerInternal` that the surrounding runtime
supplies: `ngDevMode`, the current `tNode` (type, index, component flag),
the node native element, the view renderer kind, the view identity and
length, the value `generatePropertyAliases` would compute for this node
(an external collaborator, so supplied as data), and the directive
instances reachable through `lView` (`dirOutput i name` is the property
`lView[i][name]`; `dirCtorName i` is `lView[i].constructor.name`). -/
structure InstallEnv where
  ngDevMode : Bool
  tNodeType : TNodeType
  tNodeIndex : Nat
  tNodeIsComponent : Bool
  native : Nat
  lViewProcedural : Bool
  lViewId : Nat
  lViewLen : Nat
  genOutputs : Option (List (String × List OutputProp))
  dirOutput : Nat → String → OutputVal
  dirCtorName : Nat → String

/-- Mutable state threaded through `listenerInternal`: the shared template
cleanup list `tView.cleanup` (with `tView.firstTemplatePass`), the per-view
cleanup list `lView[CLEANUP]`, the cached `tNode.outputs`, the coalesced
`__ngNextListenerFn__` links, the wrapper closures created so far, a fresh
object-id counter, and the log of external calls performed. -/
structure InstallState where
  firstTemplatePass : Bool
  tCleanup : Option (List TVal)
  lCleanup : Option (List Nat)
  tNodeOutputs : Option (Option (List (String × List OutputProp)))
  nextMap : List (Nat × Nat)
  wrappers : List WrapperRec
  freshId : Nat
  listens : List ListenCall
  addEvents : List AddEventCall
  subs : List SubCall
deriving DecidableEq, Repr

/-- Reading the `__ngNextListenerFn__` field of function `h` (absent keys
behave as `undefined`, which ends the dispatch loop). -/
def getNext : List (Nat × Nat) → Nat → Option Nat
  | [], _ => none
  | (a, b) :: t, h => if a = h then some b else getNext t h

/-- Writing the `__ngNextListenerFn__` field of function `k`. -/
def setNext (m : List (Nat × Nat)) (k : Nat) (v : Option Nat) : List (Nat × Nat) :=
  let m2 := m.filter (fun p => !decide (p.1 = k))
  match v with
  | none => m2
  | some n => (k, n) :: m2

/-- Lookup of `outputs[eventName]` on the property-alias store. -/
def lookupStr {β : Type} : List (String × β) → String → Option β
  | [], _ => none
  | (a, b) :: t, k => if a = k then some b else lookupStr t k

/-- Loop body of `findExistingListener`: scan `tView.cleanup` from index
`i`, advancing 4 slots per non-matching entry (`i += 2` in the `for` header
plus the unconditional `i += 2` in the body). On the first entry whose
first two slots are `eventName` and `tNodeIdx`, read the recorded
`lView[CLEANUP]` index from the third slot and return
`lCleanup.length > idx ? lCleanup[idx] : null`. The fuel dominates the
number of iterations; `findExistingListener` passes `tc.length`, which is
always enough since every iteration advances `i` by 4. Listener entries
always record a nonnegative numeric third slot (they push
`lCleanup.length`), so the negative / non-numeric cases return `none`. -/
def findExistingListenerLoop (tc : List TVal) (lc : List Nat) (eventName : String)
    (tNodeIdx : Int) : Nat → Nat → Option Nat
  | _, 0 => none
  | i, fuel + 1 =>
    if i + 1 < tc.length then
      if tc[i]? = some (TVal.str eventName) ∧ tc[i+1]? = some (TVal.num tNodeIdx) then
        match tc[i+2]? with
        | some (TVal.num n) =>
          if 0 ≤ n ∧ n < (lc.length : Int) then some (lc.getD n.toNat 0) else none
        | _ => none
      else
        findExistingListenerLoop tc lc eventName tNodeIdx (i + 4) fuel
    else none

/-- Model of `findExistingListener(lView, eventName, tNodeIdx)`: scan the
per-template cleanup list for an already registered native listener for the
same event name on the same node, and return the corresponding (wrapped)
listener stored in this instance of `lView[CLEANUP]`, or `none`. -/
def findExistingListener (tCleanup : Option (List TVal)) (lCleanup : Option (List Nat))
    (eventName : String) (tNodeIdx : Int) : Option Nat :=
  match tCleanup with
  | some tc => findExistingListenerLoop tc (lCleanup.getD []) eventName tNodeIdx 0 tc.length
  | none => none

/-- Modelled from the spec: `getCleanup(lView)` (defined in `shared.ts`,
outside `src/`) lazily creates the per-view cleanup list on first use
(`lView[CLEANUP] || (lView[CLEANUP] = [])`). -/
def ensureLCleanup (st : InstallState) : InstallState :=
  match st.lCleanup with
  | none => { st with lCleanup := some [] }
  | some _ => st

/-- Append values to `lView[CLEANUP]`. -/
def pushL (st : InstallState) (vals : List Nat) : InstallState :=
  { st with lCleanup := some ((st.lCleanup.getD []) ++ vals) }

/-- Append values to `tView.cleanup`; a no-op unless this is the first
template pass (`tCleanup && tCleanup.push(...)`). -/
def pushT (st : InstallState) (vals : List TVal) : InstallState :=
  if st.firstTemplatePass then
    { st with tCleanup := some ((st.tCleanup.getD []) ++ vals) }
  else st

/-- Element block of `listenerInternal` (lines 111-165): resolve the native
target, pick the renderer, and either coalesce onto an existing native
listener, register a fresh procedural listener through `renderer.listen`,
or attach directly with `addEventListener`. Returns the updated state and
the current value of the (possibly reassigned) `listenerFn` variable. -/
def elementBlock (env : InstallEnv) (eventName : String) (listenerFn : Nat)
    (useCapture : Bool) (eventTargetResolver : Option (Nat → ResolvedTarget))
    (loadRendererProcedural : Option Bool) (st0 : InstallState) : InstallState × Nat :=
  let native := env.native
  let resolved : ResolvedTarget :=
    match eventTargetResolver with
    | some r => r native
    | none => { target := none, name := none }
  let target : Nat := resolved.target.getD native
  let procedural : Bool := loadRendererProcedural.getD env.lViewProcedural
  let st1 := ensureLCleanup st0
  let lCleanupIndex : Nat := (st1.lCleanup.getD []).length
  let (st2, idxOrTargetGetter) :=
    match eventTargetResolver with
    | some _ => ({ st1 with freshId := st1.freshId + 1 }, TVal.fn st1.freshId)
    | none => (st1, TVal.num env.tNodeIndex)
  if procedural then
    let existing : Option Nat :=
      match eventTargetResolver with
      | some _ => none
      | none => findExistingListener st2.tCleanup st2.lCleanup eventName env.tNodeIndex
    match existing with
    | some existingListener =>
      let m1 := setNext st2.nextMap listenerFn (getNext st2.nextMap existingListener)
      let m2 := setNext m1 existingListener (some listenerFn)
      (({ st2 with nextMap := m2 } : InstallState), listenerFn)
    | none =>
      let w := st2.freshId
      let st3 : InstallState := { st2 with
        freshId := st2.freshId + 1,
        wrappers := st2.wrappers ++
          [{ id := w, tNodeIndex := env.tNodeIndex, tNodeIsComponent := env.tNodeIsComponent,
             lViewId := env.lViewId, inner := listenerFn, wrapWithPreventDefault := false }] }
      let cleanupFn := st3.freshId
      let targetArg : TargetArg :=
        match resolved.name with
        | some s => TargetArg.byName s
        | none => TargetArg.byRef target
      let st4 : InstallState := { st3 with
        freshId := st3.freshId + 1,
        listens := st3.listens ++
          [{ target := targetArg, eventName := eventName, fn := w }] }
      let st5 := pushL st4 [w, cleanupFn]
      let st6 := pushT st5 [TVal.str eventName, idxOrTargetGetter,
        TVal.num lCleanupIndex, TVal.num (lCleanupIndex + 1)]
      (st6, w)
  else
    let w := st2.freshId
    let st3 : InstallState := { st2 with
      freshId := st2.freshId + 1,
      wrappers := st2.wrappers ++
        [{ id := w, tNodeIndex := env.tNodeIndex, tNodeIsComponent := env.tNodeIsComponent,
           lViewId := env.lViewId, inner := listenerFn, wrapWithPreventDefault := true }],
      addEvents := st2.addEvents ++
        [{ target := target, eventName := eventName, fn := w, capture := useCapture }] }
    let st4 := pushL st3 [w]
    let st5 := pushT st4 [TVal.str eventName, idxOrTargetGetter,
      TVal.num lCleanupIndex, TVal.bool useCapture]
    (st5, w)

/-- Directive-output loop of `listenerInternal` (lines 180-196): for each
matching output triple `(directiveIndex, publicName, minifiedName)`,
dev-assert the directive index is in range, dev-assert the property is an
observable (throwing the descriptive error otherwise; the source wraps the
constructor name in single quotes), subscribe `listenerFn`, and record the
cleanup entries with the negative-index discriminator. A thrown error
aborts the loop, keeping the state mutated so far. Subscribing a
non-observable outside dev mode fails with a `TypeError` in JS. -/
def subscribeOutputs (env : InstallEnv) (eventName : String) (listenerFn : Nat) :
    List OutputProp → InstallState → InstallState × Option String
  | [], st => (st, none)
  | t :: rest, st =>
    if env.ngDevMode ∧ ¬ t.dirIndex < env.lViewLen then
      (st, some "assertDataInRange")
    else
      let output := env.dirOutput t.dirIndex t.minifiedName
      if env.ngDevMode ∧ output.isObs = false then
        (st, some ("@Output " ++ t.minifiedName ++ " not initialized in " ++
          env.dirCtorName t.dirIndex ++ "."))
      else if output.isObs = false then
        (st, some "TypeError: output.subscribe is not a function")
      else
        let subscription := st.freshId
        let st1 := { st with
          freshId := st.freshId + 1,
          subs := st.subs ++ [{ obj := output.objId, fn := listenerFn, handle := subscription }] }
        let idx := (st1.lCleanup.getD []).length
        let st2 := pushL st1 [listenerFn, subscription]
        let st3 := pushT st2 [TVal.str eventName, TVal.num env.tNodeIndex,
          TVal.num idx, TVal.num (-(idx + 1 : Int))]
        subscribeOutputs env eventName listenerFn rest st3

/-- Output section of `listenerInternal` (lines 168-198): lazily cache
`tNode.outputs` from `generatePropertyAliases`, look up the bound event
name, and if a non-empty property-alias list exists run the subscription
loop on the current `listenerFn` value. -/
def outputsBlock (env : InstallEnv) (eventName : String) (listenerFn : Nat)
    (st0 : InstallState) : InstallState × Option String :=
  let st1 :=
    match st0.tNodeOutputs with
    | none => { st0 with tNodeOutputs := some env.genOutputs }
    | some _ => st0
  match st1.tNodeOutputs with
  | some (some outputsMap) =>
    match lookupStr outputsMap eventName with
    | some props =>
      if props.length ≠ 0 then
        let st2 := ensureLCleanup st1
        subscribeOutputs env eventName listenerFn props st2
      else (st1, none)
    | none => (st1, none)
  | _ => (st1, none)

/-- Model of `listenerInternal(eventName, listenerFn, useCapture,
eventTargetResolver, loadRendererFn)`. `loadRendererProcedural` stands for
the supplied `loadRendererFn`: `some p` means a loader was passed and the
renderer it returns is procedural iff `p`. The returned `Option String` is
the error thrown, if any (dev-mode assertion failures and the
misconfigured-output error); state mutations made before a throw are kept,
as in JS. -/
def listenerInternal (env : InstallEnv) (eventName : String) (listenerFn : Nat)
    (useCapture : Bool) (eventTargetResolver : Option (Nat → ResolvedTarget))
    (loadRendererProcedural : Option Bool) (st0 : InstallState) :
    InstallState × Option String :=
  let st1 :=
    if st0.firstTemplatePass ∧ st0.tCleanup = none then
      { st0 with tCleanup := some [] }
    else st0
  if env.ngDevMode ∧ ¬ (env.tNodeType = TNodeType.Element ∨
      env.tNodeType = TNodeType.Container ∨
      env.tNodeType = TNodeType.ElementContainer) then
    (st1, some "assertNodeOfPossibleTypes")
  else
    let p :=
      if env.tNodeType = TNodeType.Element then
        elementBlock env eventName listenerFn useCapture eventTargetResolver
          loadRendererProcedural st1
      else (st1, listenerFn)
    outputsBlock env eventName p.2 p.1

/-- State of a view whose construction pass has just started: first
template pass, no cleanup lists yet, `tNode.outputs` not yet computed, no
chain links, and a fresh-id counter starting at `c`. -/
def freshState (c : Nat) : InstallState :=
  { firstTemplatePass := true, tCleanup := none, lCleanup := none,
    tNodeOutputs := none, nextMap := [], wrappers := [], freshId := c,
    listens := [], addEvents := [], subs := [] }

/-- Install a sequence of handlers for the same event name on the same
node (repeated `Δlistener` calls during one construction pass), with no
capture flag, no target resolver and no renderer loader; stop at the first
thrown error. -/
def installMany (env : InstallEnv) (eventName : String) :
    List Nat → InstallState → InstallState × Option String
  | [], st => (st, none)
  | h :: rest, st =>
    match listenerInternal env eventName h false none none st with
    | (st1, none) => installMany env eventName rest st1
    | (st1, some e) => (st1, some e)

/-- Model of `executeListenerWithErrorHandling(lView, listenerFn, e)`: run
the handler; on a throw, call `handleError(lView, error)` and return
`false`. Produces the result and the chronological event list. -/
def executeListenerWithErrorHandling (behavior : Nat → HOutcome) (lViewId : Nat)
    (listenerFn : Nat) : JSVal × List Ev :=
  match behavior listenerFn with
  | .ret v => (v, [Ev.invoke listenerFn])
  | .thrown msg => (JSVal.jsFalse, [Ev.invoke listenerFn, Ev.errorHandled lViewId msg])

/-- While-loop of the wrapped listener (lines 240-243): follow
`__ngNextListenerFn__` links, invoking each chained handler with error
isolation; the latest result wins. Fuel dominates the chain length. -/
def invokeChainLoop (behavior : Nat → HOutcome) (lViewId : Nat)
    (m : List (Nat × Nat)) : Nat → Option Nat → JSVal → JSVal × List Ev
  | _, none, r => (r, [])
  | 0, some _, r => (r, [])
  | fuel + 1, some fid, _ =>
    let p := executeListenerWithErrorHandling behavior lViewId fid
    let q := invokeChainLoop behavior lViewId m fuel (getNext m fid) p.1
    (q.1, p.2 ++ q.2)

/-- Dispatch semantics of the closure `wrapListenerIn_markDirtyAndPreventDefault`
returned by `wrapListener` (lines 225-252): pick the view to mark (the
component view for a component host, the enclosing view otherwise), mark it
dirty unless the enclosing view has the `ManualOnPush` flag, run the
closed-over handler with error isolation, walk the coalesced chain starting
at this closure's own `__ngNextListenerFn__`, and finally call
`preventDefault` and set `returnValue = false` when suppression was
requested and the final result is strictly `false`. `manualOnPush` is the
`lView[FLAGS] & LViewFlags.ManualOnPush` test at dispatch time, and
`componentViewOf` is `getComponentViewByIndex(tNode.index, lView)`. -/
def wrapListenerIn_markDirtyAndPreventDefault (w : WrapperRec) (m : List (Nat × Nat))
    (behavior : Nat → HOutcome) (manualOnPush : Bool) (componentViewOf : Nat → Nat)
    (fuel : Nat) : JSVal × List Ev :=
  let startView : Nat :=
    if w.tNodeIsComponent then componentViewOf w.tNodeIndex else w.lViewId
  let markEvs : List Ev := if manualOnPush then [] else [Ev.mark startView]
  let p := executeListenerWithErrorHandling behavior w.lViewId w.inner
  let q := invokeChainLoop behavior w.lViewId m fuel (getNext m w.id) p.1
  let pdEvs : List Ev :=
    if w.wrapWithPreventDefault = true ∧ q.1 = JSVal.jsFalse then
      [Ev.preventDefault, Ev.setReturnValueFalse]
    else []
  (q.1, markEvs ++ p.2 ++ q.2 ++ pdEvs)

/-- Proposition (as a decidable Bool) that following
`__ngNextListenerFn__` links from `cur` visits exactly the handlers `hs`
and then stops. -/
def chainIs (m : List (Nat × Nat)) : Option Nat → List Nat → Bool
  | none, [] => true
  | none, _ :: _ => false
  | some _, [] => false
  | some x, y :: ys => decide (x = y) && chainIs m (getNext m x) ys

/-- Handler-invocation events of a chain segment, as a list function. -/
def chainEvents (behavior : Nat → HOutcome) (lViewId : Nat) : List Nat → List Ev
  | [] => []
  | f :: rest =>
    (executeListenerWithErrorHandling behavior lViewId f).2 ++ chainEvents behavior lViewId rest

/-- Errors routed to `handleError` while invoking the given handlers. -/
def routedErrors (behavior : Nat → HOutcome) (lViewId : Nat) :
    List Nat → List (Nat × String)
  | [] => []
  | f :: rest =>
    (match behavior f with
     | .thrown msg => [(lViewId, msg)]
     | .ret _ => []) ++ routedErrors behavior lViewId rest

/-- Result of a chain segment under last-wins combination: the default `r`
if the segment is empty, otherwise the (error-substituted) result of the
last handler. -/
def lastResult (behavior : Nat → HOutcome) : List Nat → JSVal → JSVal
  | [], r => r
  | f :: rest, _ => lastResult behavior rest (outcomeVal (behavior f))

/-- Views passed to `markViewDirty` in an event list, in order. -/
def markedOf (evs : List Ev) : List Nat :=
  evs.filterMap (fun e => match e with | Ev.mark v => some v | _ => none)

/-- Handlers invoked in an event list, in order. -/
def invokedOf (evs : List Ev) : List Nat :=
  evs.filterMap (fun e => match e with | Ev.invoke f => some f | _ => none)

/-- Calls to `handleError` in an event list, in order. -/
def errorsOf (evs : List Ev) : List (Nat × String) :=
  evs.filterMap (fun e => match e with | Ev.errorHandled v msg => some (v, msg) | _ => none)

/-- Subscriptions the output loop performs when every output is observable:
one per alias triple, subscribing `fn`, with consecutive fresh handles. -/
def buildSubs (env : InstallEnv) (fn : Nat) :
    List OutputProp → Nat → List SubCall
  | [], _ => []
  | t :: rest, n =>
    { obj := (env.dirOutput t.dirIndex t.minifiedName).objId, fn := fn, handle := n } ::
      buildSubs env fn rest (n + 1)

/-- Per-view cleanup slots the output loop appends: `[fn, subscription]`
per output. -/
def buildLC (fn : Nat) : List OutputProp → Nat → List Nat
  | [], _ => []
  | _ :: rest, n => fn :: n :: buildLC fn rest (n + 1)

/-- Invariant holding after installing (with no resolver, procedural
renderer, element node, no outputs) a head handler `h1` followed by the
handlers `tl`, in order, starting from `freshState c`: the template and
view cleanup lists hold exactly the one native listener entry, exactly one
`listen` call was made, the single wrapper closes over `h1`, the fresh-id
counter moved past the wrapper and its disposer, and the coalesced chain
reachable from the natively registered wrapper `c` is exactly `tl`
most-recently-installed first. -/
def listenerInvariant (env : InstallEnv) (eventName : String) (c h1 : Nat)
    (tl : List Nat) (st : InstallState) : Prop :=
  st.firstTemplatePass = true ∧
  st.tCleanup = some [TVal.str eventName, TVal.num env.tNodeIndex, TVal.num 0, TVal.num 1] ∧
  st.lCleanup = some [c, c + 1] ∧
  st.tNodeOutputs = some none ∧
  st.wrappers = [⟨c, env.tNodeIndex, env.tNodeIsComponent, env.lViewId, h1, false⟩] ∧
  st.listens = [⟨TargetArg.byRef env.native, eventName, c⟩] ∧
  st.addEvents = [] ∧
  st.subs = [] ∧
  st.freshId = c + 2 ∧
  chainIs st.nextMap (getNext st.nextMap c) tl.reverse = true

/-- Filtering out key `k` removes exactly that key from the map. -/
lemma getNext_filter (m : List (Nat × Nat)) (k x : Nat) :
    getNext (m.filter (fun p => !decide (p.1 = k))) x =
      if x = k then none else getNext m x := by
  induction m with
  | nil => simp [getNext]
  | cons p t ih =>
    obtain ⟨a, b⟩ := p
    by_cases hak : a = k
    · subst hak
      by_cases hxa : x = a
      · subst hxa
        simp [List.filter_cons, getNext, ih]
      · simp [List.filter_cons, getNext, hxa, Ne.symm hxa, ih]
    · by_cases hxa : x = a
      · subst hxa
        simp [List.filter_cons, getNext, hak]
      · simp [List.filter_cons, getNext, hak, Ne.symm hxa, ih]

/-- Reading after writing the `__ngNextListenerFn__` field. -/
lemma getNext_setNext (m : List (Nat × Nat)) (k : Nat) (v : Option Nat) (x : Nat) :
    getNext (setNext m k v) x = if x = k then v else getNext m x := by
  cases v with
  | none => simpa [setNext] using getNext_filter m k x
  | some n =>
    by_cases hxk : x = k
    · simp [setNext, getNext, hxk]
    · simp [setNext, getNext, hxk, Ne.symm hxk, getNext_filter]

/-- A chain only reads the links of its own members, so it is stable under
updates at other keys. -/
lemma chainIs_congr : ∀ (hs : List Nat) (m m2 : List (Nat × Nat)),
    (∀ x ∈ hs, getNext m2 x = getNext m x) →
    ∀ cur, chainIs m2 cur hs = chainIs m cur hs := by
  intro hs
  induction hs with
  | nil => intro m m2 _ cur; cases cur <;> rfl
  | cons y ys ih =>
    intro m m2 h cur
    cases cur with
    | none => rfl
    | some x =>
      simp only [chainIs]
      by_cases hxy : x = y
      · subst hxy
        rw [h x (by simp)]
        rw [ih m m2 (fun z hz => h z (List.mem_cons_of_mem _ hz)) (getNext m x)]
      · simp [hxy]

/-- Result component of `executeListenerWithErrorHandling`. -/
lemma exec_fst (b : Nat → HOutcome) (lv f : Nat) :
    (executeListenerWithErrorHandling b lv f).1 = outcomeVal (b f) := by
  cases hbf : b f <;> simp [executeListenerWithErrorHandling, outcomeVal, hbf]

/-- The error-isolated invocation records exactly one invocation event. -/
lemma invokedOf_exec (b : Nat → HOutcome) (lv f : Nat) :
    invokedOf (executeListenerWithErrorHandling b lv f).2 = [f] := by
  cases hbf : b f <;> simp [executeListenerWithErrorHandling, invokedOf, hbf]

/-- The error-isolated invocation never marks a view. -/
lemma markedOf_exec (b : Nat → HOutcome) (lv f : Nat) :
    markedOf (executeListenerWithErrorHandling b lv f).2 = [] := by
  cases hbf : b f <;> simp [executeListenerWithErrorHandling, markedOf, hbf]

/-- Errors routed by one error-isolated invocation. -/
lemma errorsOf_exec (b : Nat → HOutcome) (lv f : Nat) :
    errorsOf (executeListenerWithErrorHandling b lv f).2 = routedErrors b lv [f] := by
  cases hbf : b f <;> simp [executeListenerWithErrorHandling, errorsOf, routedErrors, hbf]

/-- The error-isolated invocation never calls `preventDefault`. -/
lemma preventDefault_not_mem_exec (b : Nat → HOutcome) (lv f : Nat) :
    Ev.preventDefault ∉ (executeListenerWithErrorHandling b lv f).2 := by
  cases hbf : b f <;> simp [executeListenerWithErrorHandling, hbf]

/-- The error-isolated invocation never sets `returnValue`. -/
lemma setReturnValueFalse_not_mem_exec (b : Nat → HOutcome) (lv f : Nat) :
    Ev.setReturnValueFalse ∉ (executeListenerWithErrorHandling b lv f).2 := by
  cases hbf : b f <;> simp [executeListenerWithErrorHandling, hbf]

/-- The chain-walking loop never marks a view, for any fuel and any map. -/
lemma markedOf_loop (b : Nat → HOutcome) (lv : Nat) (m : List (Nat × Nat)) :
    ∀ (fuel : Nat) (cur : Option Nat) (r : JSVal),
      markedOf (invokeChainLoop b lv m fuel cur r).2 = [] := by
  intro fuel
  induction fuel with
  | zero => intro cur r; cases cur <;> simp [invokeChainLoop, markedOf]
  | succ f ih =>
    intro cur r
    cases cur with
    | none => simp [invokeChainLoop, markedOf]
    | some fid =>
      simp [invokeChainLoop, markedOf, List.filterMap_append]
      constructor
      · simpa [markedOf] using markedOf_exec b lv fid
      · simpa [markedOf] using ih (getNext m fid) (executeListenerWithErrorHandling b lv fid).1

/-- The chain-walking loop never calls `preventDefault`. -/
lemma preventDefault_not_mem_loop (b : Nat → HOutcome) (lv : Nat) (m : List (Nat × Nat)) :
    ∀ (fuel : Nat) (cur : Option Nat) (r : JSVal),
      Ev.preventDefault ∉ (invokeChainLoop b lv m fuel cur r).2 := by
  intro fuel
  induction fuel with
  | zero => intro cur r; cases cur <;> simp [invokeChainLoop]
  | succ f ih =>
    intro cur r
    cases cur with
    | none => simp [invokeChainLoop]
    | some fid =>
      simp only [invokeChainLoop, List.mem_append]
      rintro (h | h)
      · exact preventDefault_not_mem_exec b lv fid h
      · exact ih (getNext m fid) (executeListenerWithErrorHandling b lv fid).1 h

/-- The chain-walking loop never sets `returnValue`. -/
lemma setReturnValueFalse_not_mem_loop (b : Nat → HOutcome) (lv : Nat) (m : List (Nat × Nat)) :
    ∀ (fuel : Nat) (cur : Option Nat) (r : JSVal),
      Ev.setReturnValueFalse ∉ (invokeChainLoop b lv m fuel cur r).2 := by
  intro fuel
  induction fuel with
  | zero => intro cur r; cases cur <;> simp [invokeChainLoop]
  | succ f ih =>
    intro cur r
    cases cur with
    | none => simp [invokeChainLoop]
    | some fid =>
      simp only [invokeChainLoop, List.mem_append]
      rintro (h | h)
      · exact setReturnValueFalse_not_mem_exec b lv fid h
      · exact ih (getNext m fid) (executeListenerWithErrorHandling b lv fid).1 h

/-- Last-wins combination over a cons cell. -/
lemma lastResult_cons (b : Nat → HOutcome) (y : Nat) (ys : List Nat) (r : JSVal) :
    lastResult b (y :: ys) r = lastResult b ys (outcomeVal (b y)) := rfl

/-- On a well-formed chain and with enough fuel, the while-loop of the
wrapped listener visits exactly the chain, producing its events and the
last-wins result. -/
lemma invokeChainLoop_eq : ∀ (hs : List Nat) (m : List (Nat × Nat)) (cur : Option Nat)
    (b : Nat → HOutcome) (lv : Nat) (r : JSVal) (fuel : Nat),
    chainIs m cur hs = true → hs.length ≤ fuel →
    invokeChainLoop b lv m fuel cur r = (lastResult b hs r, chainEvents b lv hs) := by
  intro hs
  induction hs with
  | nil =>
    intro m cur b lv r fuel hchain _
    cases cur with
    | none => cases fuel <;> simp [invokeChainLoop, lastResult, chainEvents]
    | some x => simp [chainIs] at hchain
  | cons y ys ih =>
    intro m cur b lv r fuel hchain hf
    cases cur with
    | none => simp [chainIs] at hchain
    | some x =>
      simp only [chainIs, Bool.and_eq_true, decide_eq_true_eq] at hchain
      obtain ⟨hxy, hrest⟩ := hchain
      subst hxy
      cases fuel with
      | zero => simp at hf
      | succ f =>
        simp only [invokeChainLoop]
        rw [ih m (getNext m x) b lv (executeListenerWithErrorHandling b lv x).1 f hrest
          (by simpa using hf)]
        simp [chainEvents, lastResult_cons, exec_fst]


/-- Invocations of a chain segment: exactly its handlers, in order. -/
lemma invokedOf_chainEvents (b : Nat → HOutcome) (lv : Nat) :
    ∀ hs : List Nat, invokedOf (chainEvents b lv hs) = hs := by
  intro hs
  induction hs with
  | nil => simp [chainEvents, invokedOf]
  | cons f rest ih =>
    simp only [chainEvents, invokedOf, List.filterMap_append]
    rw [show (List.filterMap _ (executeListenerWithErrorHandling b lv f).2) =
      invokedOf (executeListenerWithErrorHandling b lv f).2 from rfl, invokedOf_exec]
    simpa [invokedOf] using ih

/-- A chain segment marks no view. -/
lemma markedOf_chainEvents (b : Nat → HOutcome) (lv : Nat) :
    ∀ hs : List Nat, markedOf (chainEvents b lv hs) = [] := by
  intro hs
  induction hs with
  | nil => simp [chainEvents, markedOf]
  | cons f rest ih =>
    simp only [chainEvents, markedOf, List.filterMap_append]
    rw [show (List.filterMap _ (executeListenerWithErrorHandling b lv f).2) =
      markedOf (executeListenerWithErrorHandling b lv f).2 from rfl, markedOf_exec]
    simpa [markedOf] using ih

/-- Errors routed by a chain segment. -/
lemma errorsOf_chainEvents (b : Nat → HOutcome) (lv : Nat) :
    ∀ hs : List Nat, errorsOf (chainEvents b lv hs) = routedErrors b lv hs := by
  intro hs
  induction hs with
  | nil => simp [chainEvents, errorsOf, routedErrors]
  | cons f rest ih =>
    simp only [chainEvents, errorsOf, List.filterMap_append]
    rw [show (List.filterMap _ (executeListenerWithErrorHandling b lv f).2) =
      errorsOf (executeListenerWithErrorHandling b lv f).2 from rfl, errorsOf_exec]
    simp only [routedErrors, errorsOf] at *
    rw [ih]
    simp [List.append_assoc]

/-- A chain segment never calls `preventDefault` or sets `returnValue`. -/
lemma pd_srvf_not_mem_chainEvents (b : Nat → HOutcome) (lv : Nat) :
    ∀ hs : List Nat, Ev.preventDefault ∉ chainEvents b lv hs ∧
      Ev.setReturnValueFalse ∉ chainEvents b lv hs := by
  intro hs
  induction hs with
  | nil => simp [chainEvents]
  | cons f rest ih =>
    simp only [chainEvents, List.mem_append]
    constructor
    · rintro (h | h)
      · exact preventDefault_not_mem_exec b lv f h
      · exact ih.1 h
    · rintro (h | h)
      · exact setReturnValueFalse_not_mem_exec b lv f h
      · exact ih.2 h

/-- Suppression events contain no view mark, no invocation and no routed
error. -/
lemma markedOf_pdEvs (c : Prop) [Decidable c] :
    markedOf (if c then [Ev.preventDefault, Ev.setReturnValueFalse] else []) = [] := by
  split <;> rfl

/-- Suppression events contain no invocation. -/
lemma invokedOf_pdEvs (c : Prop) [Decidable c] :
    invokedOf (if c then [Ev.preventDefault, Ev.setReturnValueFalse] else []) = [] := by
  split <;> rfl

/-- Suppression events contain no routed error. -/
lemma errorsOf_pdEvs (c : Prop) [Decidable c] :
    errorsOf (if c then [Ev.preventDefault, Ev.setReturnValueFalse] else []) = [] := by
  split <;> rfl

/-- Marks recorded by the conditional dirty-marking prefix. -/
lemma markedOf_markEvs (c : Prop) [Decidable c] (v : Nat) :
    markedOf (if c then [] else [Ev.mark v]) = if c then [] else [v] := by
  split <;> rfl

/-- The dirty-marking prefix contains no invocation. -/
lemma invokedOf_markEvs (c : Prop) [Decidable c] (v : Nat) :
    invokedOf (if c then [] else [Ev.mark v]) = [] := by
  split <;> rfl

/-- The dirty-marking prefix contains no routed error. -/
lemma errorsOf_markEvs (c : Prop) [Decidable c] (v : Nat) :
    errorsOf (if c then [] else [Ev.mark v]) = [] := by
  split <;> rfl

/-- Full characterization of a dispatch through the wrapped listener when
the `__ngNextListenerFn__` chain from the wrapper is `hs` and the fuel
covers it: the result is the last-wins value over the closed-over handler
followed by the chain, and the events are the optional dirty mark, the
invocations, and the optional suppression calls, in that order. -/
lemma dispatch_eq (w : WrapperRec) (m : List (Nat × Nat)) (b : Nat → HOutcome)
    (mop : Bool) (cv : Nat → Nat) (fuel : Nat) (hs : List Nat)
    (hchain : chainIs m (getNext m w.id) hs = true) (hf : hs.length ≤ fuel) :
    wrapListenerIn_markDirtyAndPreventDefault w m b mop cv fuel =
      (lastResult b (w.inner :: hs) JSVal.jsUndefined,
       (if mop then [] else
          [Ev.mark (if w.tNodeIsComponent then cv w.tNodeIndex else w.lViewId)]) ++
         chainEvents b w.lViewId (w.inner :: hs) ++
         (if w.wrapWithPreventDefault = true ∧
             lastResult b (w.inner :: hs) JSVal.jsUndefined = JSVal.jsFalse then
            [Ev.preventDefault, Ev.setReturnValueFalse] else [])) := by
  simp only [wrapListenerIn_markDirtyAndPreventDefault]
  rw [invokeChainLoop_eq hs m (getNext m w.id) b w.lViewId
    (executeListenerWithErrorHandling b w.lViewId w.inner).1 fuel hchain hf]
  rw [lastResult_cons, exec_fst]
  simp [chainEvents, List.append_assoc]

/-- C3: for every event dispatched through a wrapped listener, if the node
is a component host the component view (`getComponentViewByIndex`) is the
one marked dirty, otherwise the enclosing view is; and if the enclosing
view carries `ManualOnPush`, no view is marked dirty at all. -/
theorem c3_mark_dirty_selection (w : WrapperRec) (m : List (Nat × Nat))
    (b : Nat → HOutcome) (mop : Bool) (cv : Nat → Nat) (fuel : Nat) :
    markedOf (wrapListenerIn_markDirtyAndPreventDefault w m b mop cv fuel).2 =
      if mop then []
      else [if w.tNodeIsComponent then cv w.tNodeIndex else w.lViewId] := by
  simp only [wrapListenerIn_markDirtyAndPreventDefault, markedOf, List.filterMap_append]
  rw [show (List.filterMap _ (executeListenerWithErrorHandling b w.lViewId w.inner).2) =
    markedOf (executeListenerWithErrorHandling b w.lViewId w.inner).2 from rfl, markedOf_exec]
  rw [show (List.filterMap _ (invokeChainLoop b w.lViewId m fuel (getNext m w.id)
      (executeListenerWithErrorHandling b w.lViewId w.inner).1).2) =
    markedOf (invokeChainLoop b w.lViewId m fuel (getNext m w.id)
      (executeListenerWithErrorHandling b w.lViewId w.inner).1).2 from rfl, markedOf_loop]
  rw [show (List.filterMap _ (if mop = true then [] else
      [Ev.mark (if w.tNodeIsComponent = true then cv w.tNodeIndex else w.lViewId)])) =
    markedOf (if mop = true then [] else
      [Ev.mark (if w.tNodeIsComponent = true then cv w.tNodeIndex else w.lViewId)]) from rfl,
    markedOf_markEvs]
  rw [show (List.filterMap _ (if w.wrapWithPreventDefault = true ∧
      (invokeChainLoop b w.lViewId m fuel (getNext m w.id)
        (executeListenerWithErrorHandling b w.lViewId w.inner).1).1 = JSVal.jsFalse then
      [Ev.preventDefault, Ev.setReturnValueFalse] else [])) =
    markedOf (if w.wrapWithPreventDefault = true ∧
      (invokeChainLoop b w.lViewId m fuel (getNext m w.id)
        (executeListenerWithErrorHandling b w.lViewId w.inner).1).1 = JSVal.jsFalse then
      [Ev.preventDefault, Ev.setReturnValueFalse] else []) from rfl, markedOf_pdEvs]
  simp

/-- C4: a handler that throws during dispatch has its error routed to the
view error sink (`handleError`), its result substituted by `false`, and
every subsequently chained handler still invoked; a throw never escapes the
wrapped listener (dispatch is a total function producing the routed-error
list `routedErrors`, all invocations `w.inner :: hs`, and the last-wins
result in which a thrown outcome contributes `outcomeVal = false`). -/
theorem c4_error_isolation (w : WrapperRec) (m : List (Nat × Nat)) (b : Nat → HOutcome)
    (mop : Bool) (cv : Nat → Nat) (fuel : Nat) (hs : List Nat)
    (hchain : chainIs m (getNext m w.id) hs = true) (hf : hs.length ≤ fuel) :
    invokedOf (wrapListenerIn_markDirtyAndPreventDefault w m b mop cv fuel).2 =
      w.inner :: hs ∧
    errorsOf (wrapListenerIn_markDirtyAndPreventDefault w m b mop cv fuel).2 =
      routedErrors b w.lViewId (w.inner :: hs) ∧
    (wrapListenerIn_markDirtyAndPreventDefault w m b mop cv fuel).1 =
      lastResult b (w.inner :: hs) JSVal.jsUndefined ∧
    (∀ f msg, b f = HOutcome.thrown msg →
      (executeListenerWithErrorHandling b w.lViewId f).1 = JSVal.jsFalse) := by
  rw [dispatch_eq w m b mop cv fuel hs hchain hf]
  refine ⟨?_, ?_, rfl, ?_⟩
  · simp only [invokedOf, List.filterMap_append]
    rw [show (List.filterMap _ (chainEvents b w.lViewId (w.inner :: hs))) =
      invokedOf (chainEvents b w.lViewId (w.inner :: hs)) from rfl, invokedOf_chainEvents]
    rw [show (List.filterMap _ (if mop = true then [] else
        [Ev.mark (if w.tNodeIsComponent = true then cv w.tNodeIndex else w.lViewId)])) =
      invokedOf (if mop = true then [] else
        [Ev.mark (if w.tNodeIsComponent = true then cv w.tNodeIndex else w.lViewId)]) from rfl,
      invokedOf_markEvs]
    rw [show (List.filterMap _ (if w.wrapWithPreventDefault = true ∧
        lastResult b (w.inner :: hs) JSVal.jsUndefined = JSVal.jsFalse then
        [Ev.preventDefault, Ev.setReturnValueFalse] else [])) =
      invokedOf (if w.wrapWithPreventDefault = true ∧
        lastResult b (w.inner :: hs) JSVal.jsUndefined = JSVal.jsFalse then
        [Ev.preventDefault, Ev.setReturnValueFalse] else []) from rfl, invokedOf_pdEvs]
    simp
  · simp only [errorsOf, List.filterMap_append]
    rw [show (List.filterMap _ (chainEvents b w.lViewId (w.inner :: hs))) =
      errorsOf (chainEvents b w.lViewId (w.inner :: hs)) from rfl, errorsOf_chainEvents]
    rw [show (List.filterMap _ (if mop = true then [] else
        [Ev.mark (if w.tNodeIsComponent = true then cv w.tNodeIndex else w.lViewId)])) =
      errorsOf (if mop = true then [] else
        [Ev.mark (if w.tNodeIsComponent = true then cv w.tNodeIndex else w.lViewId)]) from rfl,
      errorsOf_markEvs]
    rw [show (List.filterMap _ (if w.wrapWithPreventDefault = true ∧
        lastResult b (w.inner :: hs) JSVal.jsUndefined = JSVal.jsFalse then
        [Ev.preventDefault, Ev.setReturnValueFalse] else [])) =
      errorsOf (if w.wrapWithPreventDefault = true ∧
        lastResult b (w.inner :: hs) JSVal.jsUndefined = JSVal.jsFalse then
        [Ev.preventDefault, Ev.setReturnValueFalse] else []) from rfl, errorsOf_pdEvs]
    simp
  · intro f msg hbf
    simp [executeListenerWithErrorHandling, hbf]

/-- C7: whenever dirty-marking applies (the enclosing view is not flagged
`ManualOnPush`), the dirty mark is the very first dispatch event and no
mark occurs later, so the view is marked strictly before any bound handler
(head or chained) is invoked, never after. -/
theorem c7_mark_before_invoke (w : WrapperRec) (m : List (Nat × Nat)) (b : Nat → HOutcome)
    (cv : Nat → Nat) (fuel : Nat) (mop : Bool) (hmop : mop = false) :
    (wrapListenerIn_markDirtyAndPreventDefault w m b mop cv fuel).2.head? =
      some (Ev.mark (if w.tNodeIsComponent then cv w.tNodeIndex else w.lViewId)) ∧
    markedOf (wrapListenerIn_markDirtyAndPreventDefault w m b mop cv fuel).2.tail = [] := by
  subst hmop
  simp only [wrapListenerIn_markDirtyAndPreventDefault, if_neg (by simp : ¬ false = true)]
  constructor
  · simp
  · simp only [List.cons_append, List.tail_cons, List.nil_append, markedOf,
      List.filterMap_append]
    rw [show (List.filterMap _ (executeListenerWithErrorHandling b w.lViewId w.inner).2) =
      markedOf (executeListenerWithErrorHandling b w.lViewId w.inner).2 from rfl, markedOf_exec]
    rw [show (List.filterMap _ (invokeChainLoop b w.lViewId m fuel (getNext m w.id)
        (executeListenerWithErrorHandling b w.lViewId w.inner).1).2) =
      markedOf (invokeChainLoop b w.lViewId m fuel (getNext m w.id)
        (executeListenerWithErrorHandling b w.lViewId w.inner).1).2 from rfl, markedOf_loop]
    rw [show (List.filterMap _ (if w.wrapWithPreventDefault = true ∧
        (invokeChainLoop b w.lViewId m fuel (getNext m w.id)
          (executeListenerWithErrorHandling b w.lViewId w.inner).1).1 = JSVal.jsFalse then
        [Ev.preventDefault, Ev.setReturnValueFalse] else [])) =
      markedOf (if w.wrapWithPreventDefault = true ∧
        (invokeChainLoop b w.lViewId m fuel (getNext m w.id)
          (executeListenerWithErrorHandling b w.lViewId w.inner).1).1 = JSVal.jsFalse then
        [Ev.preventDefault, Ev.setReturnValueFalse] else []) from rfl, markedOf_pdEvs]
    simp

/-- Creating the per-view cleanup list touches no other field. -/
lemma ensureLCleanup_fields (st : InstallState) :
    (ensureLCleanup st).wrappers = st.wrappers ∧
    (ensureLCleanup st).listens = st.listens ∧
    (ensureLCleanup st).addEvents = st.addEvents ∧
    (ensureLCleanup st).nextMap = st.nextMap ∧
    (ensureLCleanup st).subs = st.subs ∧
    (ensureLCleanup st).freshId = st.freshId := by
  cases h : st.lCleanup <;> simp [ensureLCleanup, h]

/-- The output-subscription loop touches neither the wrapper list, the
native-listener logs, nor the chain links. -/
lemma subscribeOutputs_preserves (env : InstallEnv) (ev : String) (fn : Nat) :
    ∀ (props : List OutputProp) (st : InstallState),
      (subscribeOutputs env ev fn props st).1.wrappers = st.wrappers ∧
      (subscribeOutputs env ev fn props st).1.listens = st.listens ∧
      (subscribeOutputs env ev fn props st).1.addEvents = st.addEvents ∧
      (subscribeOutputs env ev fn props st).1.nextMap = st.nextMap := by
  intro props
  induction props with
  | nil => intro st; simp [subscribeOutputs]
  | cons t rest ih =>
    intro st
    simp only [subscribeOutputs]
    split
    · simp
    · split
      · simp
      · split
        · simp
        · refine ⟨?_, ?_, ?_, ?_⟩
          · rw [(ih _).1]; unfold pushT pushL; split <;> rfl
          · rw [(ih _).2.1]; unfold pushT pushL; split <;> rfl
          · rw [(ih _).2.2.1]; unfold pushT pushL; split <;> rfl
          · rw [(ih _).2.2.2]; unfold pushT pushL; split <;> rfl

/-- The output section touches neither the wrapper list, the
native-listener logs, nor the chain links. -/
lemma outputsBlock_preserves (env : InstallEnv) (ev : String) (fn : Nat) (st : InstallState) :
    (outputsBlock env ev fn st).1.wrappers = st.wrappers ∧
    (outputsBlock env ev fn st).1.listens = st.listens ∧
    (outputsBlock env ev fn st).1.addEvents = st.addEvents ∧
    (outputsBlock env ev fn st).1.nextMap = st.nextMap := by
  have h1 := ensureLCleanup_fields
  have h2 := subscribeOutputs_preserves env ev fn
  unfold outputsBlock
  cases hto : st.tNodeOutputs with
  | none =>
    simp only [hto]
    cases hgo : env.genOutputs with
    | none => simp [hgo]
    | some om =>
      simp only [hgo]
      cases hlk : lookupStr om ev with
      | none => simp [hlk]
      | some props =>
        simp only [hlk]
        by_cases hlen : props.length ≠ 0
        · simp only [if_pos hlen]
          refine ⟨?_, ?_, ?_, ?_⟩
          · rw [(h2 _ _).1, (h1 _).1]
          · rw [(h2 _ _).2.1, (h1 _).2.1]
          · rw [(h2 _ _).2.2.1, (h1 _).2.2.1]
          · rw [(h2 _ _).2.2.2, (h1 _).2.2.2.1]
        · simp [hlen]
  | some o =>
    simp only [hto]
    cases o with
    | none => simp
    | some om =>
      cases hlk : lookupStr om ev with
      | none => simp [hlk]
      | some props =>
        simp only [hlk]
        by_cases hlen : props.length ≠ 0
        · simp only [if_pos hlen]
          refine ⟨?_, ?_, ?_, ?_⟩
          · rw [(h2 _ _).1, (h1 _).1]
          · rw [(h2 _ _).2.1, (h1 _).2.1]
          · rw [(h2 _ _).2.2.1, (h1 _).2.2.1]
          · rw [(h2 _ _).2.2.2, (h1 _).2.2.2.1]
        · simp [hlen]

/-- Every wrapper present after the element block was either already there
or was created by this call with `wrapWithPreventDefault` set exactly when
the effective renderer is not procedural (the procedural renderer applies
suppression itself, so the core skips it there). -/
lemma elementBlock_wrapper_flag (env : InstallEnv) (ev : String) (lfn : Nat) (cap : Bool)
    (res : Option (Nat → ResolvedTarget)) (loadp : Option Bool) (st : InstallState) :
    ∀ r ∈ (elementBlock env ev lfn cap res loadp st).1.wrappers,
      r ∈ st.wrappers ∨ r.wrapWithPreventDefault = !(loadp.getD env.lViewProcedural) := by
  have h1 := ensureLCleanup_fields st
  intro r hr
  unfold elementBlock at hr
  by_cases hp : loadp.getD env.lViewProcedural = true
  · rw [hp] at hr
    simp only [if_true] at hr
    cases res with
    | none =>
      simp only at hr
      cases hex : findExistingListener (ensureLCleanup st).tCleanup
          (ensureLCleanup st).lCleanup ev env.tNodeIndex with
      | some ex =>
        rw [hex] at hr
        simp only at hr
        left
        rw [← h1.1]
        exact hr
      | none =>
        rw [hex] at hr
        simp only [pushT, pushL] at hr
        split at hr <;>
          simp only [List.mem_append, List.mem_singleton] at hr <;>
          rcases hr with hr | hr
        · left; rw [← h1.1]; exact hr
        · right; rw [hr, hp]; rfl
        · left; rw [← h1.1]; exact hr
        · right; rw [hr, hp]; rfl
    | some r0 =>
      simp only at hr
      simp only [pushT, pushL] at hr
      split at hr <;>
        simp only [List.mem_append, List.mem_singleton] at hr <;>
        rcases hr with hr | hr
      · left; rw [← h1.1]; exact hr
      · right; rw [hr, hp]; rfl
      · left; rw [← h1.1]; exact hr
      · right; rw [hr, hp]; rfl
  · simp only [Bool.not_eq_true] at hp
    rw [hp] at hr
    simp only [Bool.false_eq_true, if_false] at hr
    cases res with
    | none =>
      simp only [pushT, pushL] at hr
      split at hr <;>
        simp only [List.mem_append, List.mem_singleton] at hr <;>
        rcases hr with hr | hr
      · left; rw [← h1.1]; exact hr
      · right; rw [hr, hp]; rfl
      · left; rw [← h1.1]; exact hr
      · right; rw [hr, hp]; rfl
    | some r0 =>
      simp only [pushT, pushL] at hr
      split at hr <;>
        simp only [List.mem_append, List.mem_singleton] at hr <;>
        rcases hr with hr | hr
      · left; rw [← h1.1]; exact hr
      · right; rw [hr, hp]; rfl
      · left; rw [← h1.1]; exact hr
      · right; rw [hr, hp]; rfl

/-- Membership of the suppression calls in the dispatch event list is
exactly the suppression condition of the source: `wrapWithPreventDefault`
requested and final result strictly `false`. -/
lemma pd_mem_dispatch_iff (w : WrapperRec) (m : List (Nat × Nat)) (b : Nat → HOutcome)
    (mop : Bool) (cv : Nat → Nat) (fuel : Nat) :
    (Ev.preventDefault ∈ (wrapListenerIn_markDirtyAndPreventDefault w m b mop cv fuel).2 ↔
      w.wrapWithPreventDefault = true ∧
        (wrapListenerIn_markDirtyAndPreventDefault w m b mop cv fuel).1 = JSVal.jsFalse) ∧
    (Ev.setReturnValueFalse ∈ (wrapListenerIn_markDirtyAndPreventDefault w m b mop cv fuel).2 ↔
      w.wrapWithPreventDefault = true ∧
        (wrapListenerIn_markDirtyAndPreventDefault w m b mop cv fuel).1 = JSVal.jsFalse) := by
  have hres : (wrapListenerIn_markDirtyAndPreventDefault w m b mop cv fuel).1 =
      (invokeChainLoop b w.lViewId m fuel (getNext m w.id)
        (executeListenerWithErrorHandling b w.lViewId w.inner).1).1 := rfl
  rw [hres]
  constructor
  · constructor
    · intro h
      simp only [wrapListenerIn_markDirtyAndPreventDefault, List.mem_append] at h
      rcases h with ((h | h) | h) | h
      · revert h; split <;> simp
      · exact absurd h (preventDefault_not_mem_exec b w.lViewId w.inner)
      · exact absurd h (preventDefault_not_mem_loop b w.lViewId m fuel (getNext m w.id)
          (executeListenerWithErrorHandling b w.lViewId w.inner).1)
      · revert h; split
        · intro _; assumption
        · simp
    · intro hc
      simp only [wrapListenerIn_markDirtyAndPreventDefault, List.mem_append]
      rw [if_pos hc]
      simp
  · constructor
    · intro h
      simp only [wrapListenerIn_markDirtyAndPreventDefault, List.mem_append] at h
      rcases h with ((h | h) | h) | h
      · revert h; split <;> simp
      · exact absurd h (setReturnValueFalse_not_mem_exec b w.lViewId w.inner)
      · exact absurd h (setReturnValueFalse_not_mem_loop b w.lViewId m fuel (getNext m w.id)
          (executeListenerWithErrorHandling b w.lViewId w.inner).1)
      · revert h; split
        · intro _; assumption
        · simp
    · intro hc
      simp only [wrapListenerIn_markDirtyAndPreventDefault, List.mem_append]
      rw [if_pos hc]
      simp

/-- C5: for a directly attached (non-procedural) listener the event default
action is prevented (`preventDefault` called and `returnValue` set to
`false`) exactly when the final combined result is strictly `false`; any
other result does not suppress; and the core never applies suppression
through wrappers created on the procedural-renderer path, because those
wrappers carry `wrapWithPreventDefault = false` (every wrapper created by
`listenerInternal` has the flag equal to the negation of the effective
renderer being procedural). -/
theorem c5_prevent_default :
    (∀ (w : WrapperRec) (m : List (Nat × Nat)) (b : Nat → HOutcome) (mop : Bool)
        (cv : Nat → Nat) (fuel : Nat),
      (Ev.preventDefault ∈ (wrapListenerIn_markDirtyAndPreventDefault w m b mop cv fuel).2 ↔
        w.wrapWithPreventDefault = true ∧
          (wrapListenerIn_markDirtyAndPreventDefault w m b mop cv fuel).1 = JSVal.jsFalse) ∧
      (Ev.setReturnValueFalse ∈
          (wrapListenerIn_markDirtyAndPreventDefault w m b mop cv fuel).2 ↔
        w.wrapWithPreventDefault = true ∧
          (wrapListenerIn_markDirtyAndPreventDefault w m b mop cv fuel).1 = JSVal.jsFalse)) ∧
    (∀ (env : InstallEnv) (ev : String) (lfn : Nat) (cap : Bool)
        (res : Option (Nat → ResolvedTarget)) (loadp : Option Bool) (st : InstallState),
      ∀ r ∈ (listenerInternal env ev lfn cap res loadp st).1.wrappers,
        r ∈ st.wrappers ∨
          r.wrapWithPreventDefault = !(loadp.getD env.lViewProcedural)) := by
  constructor
  · intro w m b mop cv fuel
    exact pd_mem_dispatch_iff w m b mop cv fuel
  · intro env ev lfn cap res loadp st r hr
    simp only [listenerInternal] at hr
    split at hr
    · left
      revert hr
      split <;> intro hr <;> exact hr
    · rw [(outputsBlock_preserves env ev _ _).1] at hr
      revert hr
      split
      · intro hr
        rcases elementBlock_wrapper_flag env ev lfn cap res loadp _ r hr with h | h
        · left
          revert h
          split <;> intro h <;> exact h
        · right; exact h
      · intro hr
        left
        revert hr
        split <;> intro hr <;> exact hr

/-- Concrete environment: element node at index 3, procedural renderer,
no directive outputs, dev mode off. -/
def envElemProc : InstallEnv :=
  { ngDevMode := false, tNodeType := TNodeType.Element, tNodeIndex := 3,
    tNodeIsComponent := false, native := 77, lViewProcedural := true,
    lViewId := 1, lViewLen := 5, genOutputs := none,
    dirOutput := fun _ _ => { isObs := true, objId := 0 },
    dirCtorName := fun _ => "SomeDirective" }

/-- Concrete environment: container node, otherwise as `envElemProc`. -/
def envContainer : InstallEnv :=
  { envElemProc with tNodeType := TNodeType.Container }

/-- C9 counterexample: on a `Container` node (an element-like node the
claim says receives a native attachment) the install succeeds but performs
no target resolution and no native listener attachment at all: no
`renderer.listen` call, no `addEventListener` call, no wrapper created. -/
theorem c9_counterexample_container_no_native :
    (listenerInternal envContainer "click" 5 false none none (freshState 10)).2 = none ∧
    (listenerInternal envContainer "click" 5 false none none (freshState 10)).1.listens = [] ∧
    (listenerInternal envContainer "click" 5 false none none
      (freshState 10)).1.addEvents = [] ∧
    (listenerInternal envContainer "click" 5 false none none
      (freshState 10)).1.wrappers = [] := by
  decide

/-- C9 amended: `listenerInternal` performs native-target resolution and
native listener attachment only when the current node is an `Element` node;
for every other node type (including `Container` and `ElementContainer`,
which the dev-mode assertion permits) the native block is skipped entirely,
and in dev mode any node type outside element, container and
element-container fails the `assertNodeOfPossibleTypes` assertion. -/
theorem c9_native_attach_element_only_amended :
    (∀ (env : InstallEnv) (ev : String) (lfn : Nat) (cap : Bool)
        (res : Option (Nat → ResolvedTarget)) (loadp : Option Bool) (st : InstallState),
      env.tNodeType ≠ TNodeType.Element →
        (listenerInternal env ev lfn cap res loadp st).1.listens = st.listens ∧
        (listenerInternal env ev lfn cap res loadp st).1.addEvents = st.addEvents ∧
        (listenerInternal env ev lfn cap res loadp st).1.wrappers = st.wrappers) ∧
    (∀ (env : InstallEnv) (ev : String) (lfn : Nat) (cap : Bool)
        (res : Option (Nat → ResolvedTarget)) (loadp : Option Bool) (st : InstallState),
      env.ngDevMode = true → env.tNodeType ≠ TNodeType.Element →
      env.tNodeType ≠ TNodeType.Container → env.tNodeType ≠ TNodeType.ElementContainer →
      (listenerInternal env ev lfn cap res loadp st).2 =
        some "assertNodeOfPossibleTypes") := by
  constructor
  · intro env ev lfn cap res loadp st hne
    simp only [listenerInternal]
    split
    · refine ⟨?_, ?_, ?_⟩ <;> (split <;> rfl)
    · refine ⟨?_, ?_, ?_⟩
      · rw [(outputsBlock_preserves env ev _ _).2.1]; split <;> rfl
      · rw [(outputsBlock_preserves env ev _ _).2.2.1]; split <;> rfl
      · rw [(outputsBlock_preserves env ev _ _).1]; split <;> rfl
  · intro env ev lfn cap res loadp st hdev h1 h2 h3
    simp only [listenerInternal]
    rw [if_pos (show env.ngDevMode = true ∧
        ¬ (env.tNodeType = TNodeType.Element ∨ env.tNodeType = TNodeType.Container ∨
          env.tNodeType = TNodeType.ElementContainer) from
      ⟨hdev, fun hor => by rcases hor with h | h | h; exacts [h1 h, h2 h, h3 h]⟩)]

/-- If no stride-4 position (relative to the scan start `i`) matches the
event name and node index, the scan returns `none`, regardless of entries
sitting at other offsets. -/
lemma findLoop_none (tc : List TVal) (lc : List Nat) (ev : String) (idx : Int) :
    ∀ (fuel i : Nat),
      (∀ j, i ≤ j → (j - i) % 4 = 0 → j + 1 < tc.length →
        ¬(tc[j]? = some (TVal.str ev) ∧ tc[j+1]? = some (TVal.num idx))) →
      findExistingListenerLoop tc lc ev idx i fuel = none := by
  intro fuel
  induction fuel with
  | zero => intro i _; rfl
  | succ f ih =>
    intro i h
    simp only [findExistingListenerLoop]
    split
    · rw [if_neg (h i (Nat.le_refl i) (by omega) (by omega))]
      apply ih
      intro j hij hmod hlen
      exact h j (by omega) (by omega) hlen
    · rfl

/-- If the first stride-4 match records a view-cleanup index that is not
yet populated (at or beyond the current length of `lView[CLEANUP]`), the
scan returns `none`. -/
lemma findLoop_unpopulated (tc : List TVal) (lc : List Nat) (ev : String) (idx : Int)
    (j : Nat) (k : Int) :
    ∀ (fuel i : Nat), i ≤ j → (j - i) % 4 = 0 → j < i + 4 * fuel →
      (∀ j2, i ≤ j2 → j2 < j → (j2 - i) % 4 = 0 →
        ¬(tc[j2]? = some (TVal.str ev) ∧ tc[j2+1]? = some (TVal.num idx))) →
      j + 1 < tc.length →
      tc[j]? = some (TVal.str ev) → tc[j+1]? = some (TVal.num idx) →
      tc[j+2]? = some (TVal.num k) → (lc.length : Int) ≤ k →
      findExistingListenerLoop tc lc ev idx i fuel = none := by
  intro fuel
  induction fuel with
  | zero =>
    intro i hij hmod hlt
    exact absurd hlt (by omega)
  | succ f ih =>
    intro i hij hmod hlt hprev hlen hm1 hm2 hm3 hk
    by_cases hieq : i = j
    · subst hieq
      simp only [findExistingListenerLoop]
      rw [if_pos (by omega : i + 1 < tc.length)]
      rw [if_pos ⟨hm1, hm2⟩, hm3]
      simp only
      rw [if_neg (by omega : ¬ (0 ≤ k ∧ k < (lc.length : Int)))]
    · simp only [findExistingListenerLoop]
      rw [if_pos (by omega : i + 1 < tc.length)]
      rw [if_neg (hprev i (Nat.le_refl i) (by omega) (by omega))]
      exact ih (i + 4) (by omega) (by omega) (by omega)
        (fun j2 h1 h2 h3 => hprev j2 (by omega) h2 (by omega)) hlen hm1 hm2 hm3 hk

/-- C10: the coalescing lookup inspects candidate (event name, node index)
pairs only at `tView.cleanup` indices that are multiples of 4 — it advances
4 slots per non-matching entry unconditionally — so an entry matching the
scanned pair whose first slot sits at an index that is not a multiple of 4
is never found (first conjunct: if no multiple-of-4 position matches, the
result is `none` no matter what sits elsewhere); and when the first
matching multiple-of-4 entry records a view-cleanup index not yet populated
in this instance of `lView[CLEANUP]`, the lookup returns `none`, so the
caller makes a fresh native subscription (second conjunct). -/
theorem c10_cleanup_scan_stride :
    (∀ (tc : List TVal) (lc : Option (List Nat)) (ev : String) (idx : Int),
      (∀ j, j < tc.length → j % 4 = 0 → j + 1 < tc.length →
        ¬(tc[j]? = some (TVal.str ev) ∧ tc[j+1]? = some (TVal.num idx))) →
      findExistingListener (some tc) lc ev idx = none) ∧
    (∀ (tc : List TVal) (lc : Option (List Nat)) (ev : String) (idx : Int)
        (j : Nat) (k : Int),
      j % 4 = 0 → j + 1 < tc.length →
      tc[j]? = some (TVal.str ev) → tc[j+1]? = some (TVal.num idx) →
      (∀ j2, j2 < j → j2 % 4 = 0 →
        ¬(tc[j2]? = some (TVal.str ev) ∧ tc[j2+1]? = some (TVal.num idx))) →
      tc[j+2]? = some (TVal.num k) → (((lc.getD []).length : Int)) ≤ k →
      findExistingListener (some tc) lc ev idx = none) := by
  constructor
  · intro tc lc ev idx h
    simp only [findExistingListener]
    apply findLoop_none
    intro j _ hmod hlen
    exact h j (by omega) (by omega) hlen
  · intro tc lc ev idx j k hmod hlen hm1 hm2 hprev hm3 hk
    simp only [findExistingListener]
    apply findLoop_unpopulated tc (lc.getD []) ev idx j k tc.length 0 (by omega) (by omega)
      (by omega) (fun j2 _ h2 h3 => hprev j2 h2 (by omega)) hlen hm1 hm2 hm3 hk

/-- Appending to the per-view cleanup list leaves the subscription log
unchanged. -/
lemma pushL_subs (st : InstallState) (vals : List Nat) : (pushL st vals).subs = st.subs := rfl

/-- Appending to the per-template cleanup list leaves the subscription log
unchanged. -/
lemma pushT_subs (st : InstallState) (vals : List TVal) : (pushT st vals).subs = st.subs := by
  unfold pushT; split <;> rfl

/-- Appending to the per-view cleanup list leaves the id counter unchanged. -/
lemma pushL_freshId (st : InstallState) (vals : List Nat) :
    (pushL st vals).freshId = st.freshId := rfl

/-- Appending to the per-template cleanup list leaves the id counter
unchanged. -/
lemma pushT_freshId (st : InstallState) (vals : List TVal) :
    (pushT st vals).freshId = st.freshId := by
  unfold pushT; split <;> rfl

/-- Appending to the per-template cleanup list leaves the per-view cleanup
list unchanged. -/
lemma pushT_lCleanup (st : InstallState) (vals : List TVal) :
    (pushT st vals).lCleanup = st.lCleanup := by
  unfold pushT; split <;> rfl

/-- C8 amended: in dev mode, when a directive claims the bound event name
as an output but the referenced property is not a subscribable stream
(`isObservable` fails), the output loop of `listenerInternal` throws a
descriptive error naming the offending minified property and the owning
type, aborting the installation right there: the outputs before the bad
one are subscribed, the bad one and everything after it are not (the
resulting state is exactly the state after the good prefix). Outside dev
mode the `isObservable` check is skipped and no descriptive error occurs
(see the counterexample). -/
theorem c8_misconfigured_output_fails_fast (env : InstallEnv) (ev : String) (fn : Nat)
    (good : List OutputProp) (bad : OutputProp) (rest : List OutputProp) (st : InstallState)
    (hdev : env.ngDevMode = true)
    (hgood : ∀ t ∈ good, (env.dirOutput t.dirIndex t.minifiedName).isObs = true ∧
      t.dirIndex < env.lViewLen)
    (hrange : bad.dirIndex < env.lViewLen)
    (hbad : (env.dirOutput bad.dirIndex bad.minifiedName).isObs = false) :
    subscribeOutputs env ev fn (good ++ bad :: rest) st =
      ((subscribeOutputs env ev fn good st).1,
        some ("@Output " ++ bad.minifiedName ++ " not initialized in " ++
          env.dirCtorName bad.dirIndex ++ ".")) ∧
    (subscribeOutputs env ev fn good st).2 = none ∧
    (subscribeOutputs env ev fn good st).1.subs =
      st.subs ++ buildSubs env fn good st.freshId := by
  induction good generalizing st with
  | nil =>
    refine ⟨?_, rfl, by simp [subscribeOutputs, buildSubs]⟩
    simp only [subscribeOutputs, List.nil_append]
    rw [if_neg (fun hc => hc.2 hrange)]
    rw [if_pos ⟨hdev, hbad⟩]
  | cons t good2 ih =>
    have ht := hgood t (by simp)
    have hglobal : ∀ u ∈ good2, (env.dirOutput u.dirIndex u.minifiedName).isObs = true ∧
        u.dirIndex < env.lViewLen := fun u hu => hgood u (by simp [hu])
    have hc1 : (env.ngDevMode = true ∧ ¬ t.dirIndex < env.lViewLen) = False :=
      eq_false (fun hc => hc.2 ht.2)
    have hc2 : (env.ngDevMode = true ∧
        (env.dirOutput t.dirIndex t.minifiedName).isObs = false) = False :=
      eq_false (fun hc => by rw [ht.1] at hc; exact absurd hc.2 (by simp))
    have hc3 : ((env.dirOutput t.dirIndex t.minifiedName).isObs = false) = False :=
      eq_false (by simp [ht.1])
    simp only [subscribeOutputs, List.cons_append, hc1, hc2, hc3, and_false, if_false]
    refine ⟨(ih _ hglobal).1, (ih _ hglobal).2.1, ?_⟩
    rw [(ih _ hglobal).2.2, pushT_subs, pushL_subs, pushT_freshId, pushL_freshId]
    simp [buildSubs, List.append_assoc]

/-- When every matching output is observable (and, in dev mode, every
directive index is in range), the output loop subscribes one output per
alias triple — each subscription passing the same `listenerFn` it was
given, with consecutive fresh handles — and registers each in the per-view
cleanup list. -/
lemma subscribeOutputs_good (env : InstallEnv) (ev : String) (fn : Nat) :
    ∀ (props : List OutputProp) (st : InstallState),
      (∀ t ∈ props, (env.dirOutput t.dirIndex t.minifiedName).isObs = true ∧
        (env.ngDevMode = true → t.dirIndex < env.lViewLen)) →
      (subscribeOutputs env ev fn props st).2 = none ∧
      (subscribeOutputs env ev fn props st).1.subs =
        st.subs ++ buildSubs env fn props st.freshId ∧
      ((subscribeOutputs env ev fn props st).1.lCleanup).getD [] =
        (st.lCleanup.getD []) ++ buildLC fn props st.freshId := by
  intro props
  induction props with
  | nil =>
    intro st hall
    exact ⟨rfl, by simp [subscribeOutputs, buildSubs], by simp [subscribeOutputs, buildLC]⟩
  | cons t good2 ih =>
    intro st hall
    have ht := hall t (by simp)
    have hglobal : ∀ u ∈ good2, (env.dirOutput u.dirIndex u.minifiedName).isObs = true ∧
        (env.ngDevMode = true → u.dirIndex < env.lViewLen) :=
      fun u hu => hall u (by simp [hu])
    have hc1 : (env.ngDevMode = true ∧ ¬ t.dirIndex < env.lViewLen) = False :=
      eq_false (fun hc => hc.2 (ht.2 hc.1))
    have hc2 : (env.ngDevMode = true ∧
        (env.dirOutput t.dirIndex t.minifiedName).isObs = false) = False :=
      eq_false (fun hc => by rw [ht.1] at hc; exact absurd hc.2 (by simp))
    have hc3 : ((env.dirOutput t.dirIndex t.minifiedName).isObs = false) = False :=
      eq_false (by simp [ht.1])
    simp only [subscribeOutputs, hc1, hc2, hc3, and_false, if_false]
    refine ⟨(ih _ hglobal).1, ?_, ?_⟩
    · rw [(ih _ hglobal).2.1, pushT_subs, pushL_subs, pushT_freshId, pushL_freshId]
      simp [buildSubs, List.append_assoc]
    · rw [(ih _ hglobal).2.2, pushT_lCleanup, pushT_freshId, pushL_freshId]
      simp [pushL, buildLC, List.append_assoc]

/-- Every subscription the output loop would make subscribes exactly the
listener function it was given. -/
lemma buildSubs_fn (env : InstallEnv) (fn : Nat) :
    ∀ (props : List OutputProp) (n : Nat), ∀ s ∈ buildSubs env fn props n, s.fn = fn := by
  intro props
  induction props with
  | nil => intro n s hs; simp [buildSubs] at hs
  | cons t rest ih =>
    intro n s hs
    simp only [buildSubs, List.mem_cons] at hs
    rcases hs with hs | hs
    · rw [hs]
    · exact ih (n + 1) s hs

/-- The subscription handles produced by the output loop are the
consecutive fresh identifiers starting at `n`. -/
lemma buildSubs_handles (env : InstallEnv) (fn : Nat) :
    ∀ (props : List OutputProp) (n : Nat),
      (buildSubs env fn props n).map SubCall.handle = List.range' n props.length := by
  intro props
  induction props with
  | nil => intro n; rfl
  | cons t rest ih => intro n; simp [buildSubs, ih n.succ, List.range']

/-- Fresh install on an element node with a procedural renderer and no
resolver: the element block wraps the handler into wrapper `c`, registers
it natively (one `listen` call), stores wrapper and disposer in the
per-view cleanup list and the 4-slot entry in the template cleanup list,
and returns the wrapper as the new `listenerFn`. -/
lemma elementBlock_fresh (env : InstallEnv) (ev : String) (h c : Nat)
    (hP : env.lViewProcedural = true) :
    elementBlock env ev h false none none
        { firstTemplatePass := true, tCleanup := some [], lCleanup := none,
          tNodeOutputs := none, nextMap := [], wrappers := [], freshId := c,
          listens := [], addEvents := [], subs := [] } =
      ({ firstTemplatePass := true,
         tCleanup := some [TVal.str ev, TVal.num env.tNodeIndex, TVal.num 0, TVal.num 1],
         lCleanup := some [c, c + 1],
         tNodeOutputs := none,
         nextMap := [],
         wrappers := [{ id := c, tNodeIndex := env.tNodeIndex,
                        tNodeIsComponent := env.tNodeIsComponent, lViewId := env.lViewId,
                        inner := h, wrapWithPreventDefault := false }],
         freshId := c + 2,
         listens := [{ target := TargetArg.byRef env.native, eventName := ev, fn := c }],
         addEvents := [],
         subs := [] }, c) := by
  simp [elementBlock, ensureLCleanup, hP, findExistingListener,
    findExistingListenerLoop, pushL, pushT]

/-- An install through `listenerInternal` on a fresh element/procedural
state reduces to the output section applied to the state left by the fresh
element block, with the wrapper `c` as the current listener function. -/
lemma listenerInternal_first (env : InstallEnv) (ev : String) (h c : Nat)
    (hE : env.tNodeType = TNodeType.Element) (hP : env.lViewProcedural = true) :
    listenerInternal env ev h false none none (freshState c) =
      outputsBlock env ev c
        { firstTemplatePass := true,
          tCleanup := some [TVal.str ev, TVal.num env.tNodeIndex, TVal.num 0, TVal.num 1],
          lCleanup := some [c, c + 1],
          tNodeOutputs := none,
          nextMap := [],
          wrappers := [{ id := c, tNodeIndex := env.tNodeIndex,
                         tNodeIsComponent := env.tNodeIsComponent, lViewId := env.lViewId,
                         inner := h, wrapWithPreventDefault := false }],
          freshId := c + 2,
          listens := [{ target := TargetArg.byRef env.native, eventName := ev, fn := c }],
          addEvents := [],
          subs := [] } := by
  have hassert : ¬ (env.ngDevMode = true ∧
      ¬ (env.tNodeType = TNodeType.Element ∨ env.tNodeType = TNodeType.Container ∨
        env.tNodeType = TNodeType.ElementContainer)) :=
    fun hc => hc.2 (Or.inl hE)
  simp only [listenerInternal, freshState, and_self, if_true]
  rw [if_neg hassert, if_pos hE]
  rw [elementBlock_fresh env ev h c hP]

/-- Concrete environment: as `envElemProc` but with one directive output
(directive at `lView` index 1, minified property name `out`, stream object
42) matching the event name `click`. -/
def envElemOut : InstallEnv :=
  { envElemProc with
    genOutputs := some [("click",
      [{ dirIndex := 1, publicName := "click", minifiedName := "out" }])],
    dirOutput := fun _ _ => { isObs := true, objId := 42 } }

/-- C6 counterexample: installing handler 5 for `click` on a fresh element
node with a procedural renderer and a matching directive output subscribes
function 10 — the dirty-marking wrapper just created and natively
registered by this very call (the single wrapper closes over the original
handler 5 and has id 10) — and not the original unwrapped handler 5,
refuting the claim that the original handler is always the one
subscribed. -/
theorem c6_counterexample_output_subscribes_wrapper :
    (listenerInternal envElemOut "click" 5 false none none (freshState 10)).1.subs =
      [{ obj := 42, fn := 10, handle := 12 }] ∧
    (listenerInternal envElemOut "click" 5 false none none (freshState 10)).1.wrappers =
      [{ id := 10, tNodeIndex := 3, tNodeIsComponent := false, lViewId := 1, inner := 5,
         wrapWithPreventDefault := false }] ∧
    (10 : Nat) ≠ 5 := by
  decide

/-- C6 amended: the output loop subscribes, for every matching output, the
listener function current at that point — which is the original handler
unless this same call just created and natively registered a new
dirty-marking wrapper for an element node, in which case that wrapper is
subscribed — and output subscriptions are never coalesced: one independent
subscription per matching output, with pairwise distinct subscription
handles, each recorded in the per-view cleanup list (first conjunct: the
loop subscribes exactly the function it is given, once per output, with
distinct handles, registering each for cleanup; second conjunct: on a
fresh element/procedural install the function passed to the loop is the
new wrapper, not the original handler). -/
theorem c6_output_subscriptions_amended :
    (∀ (env : InstallEnv) (ev : String) (fn : Nat) (props : List OutputProp)
        (st : InstallState),
      (∀ t ∈ props, (env.dirOutput t.dirIndex t.minifiedName).isObs = true ∧
        (env.ngDevMode = true → t.dirIndex < env.lViewLen)) →
      (subscribeOutputs env ev fn props st).2 = none ∧
      (subscribeOutputs env ev fn props st).1.subs =
        st.subs ++ buildSubs env fn props st.freshId ∧
      ((subscribeOutputs env ev fn props st).1.lCleanup).getD [] =
        (st.lCleanup.getD []) ++ buildLC fn props st.freshId ∧
      (∀ s ∈ buildSubs env fn props st.freshId, s.fn = fn) ∧
      ((buildSubs env fn props st.freshId).map SubCall.handle).Nodup) ∧
    (∀ (env : InstallEnv) (ev : String) (h c : Nat)
        (om : List (String × List OutputProp)) (props : List OutputProp),
      env.tNodeType = TNodeType.Element → env.lViewProcedural = true →
      env.genOutputs = some om → lookupStr om ev = some props →
      (∀ t ∈ props, (env.dirOutput t.dirIndex t.minifiedName).isObs = true ∧
        (env.ngDevMode = true → t.dirIndex < env.lViewLen)) →
      (listenerInternal env ev h false none none (freshState c)).2 = none ∧
      (listenerInternal env ev h false none none (freshState c)).1.subs =
        buildSubs env c props (c + 2)) := by
  constructor
  · intro env ev fn props st hall
    refine ⟨(subscribeOutputs_good env ev fn props st hall).1,
      (subscribeOutputs_good env ev fn props st hall).2.1,
      (subscribeOutputs_good env ev fn props st hall).2.2,
      buildSubs_fn env fn props st.freshId, ?_⟩
    rw [buildSubs_handles]
    exact List.nodup_range' st.freshId props.length 1 (by omega)
  · intro env ev h c om props hE hP hG hlk hall
    rw [listenerInternal_first env ev h c hE hP]
    simp only [outputsBlock, hG, hlk]
    by_cases hlen : props.length ≠ 0
    · rw [if_pos hlen]
      have hgood := subscribeOutputs_good env ev c props
        (ensureLCleanup
          { firstTemplatePass := true,
            tCleanup := some [TVal.str ev, TVal.num env.tNodeIndex, TVal.num 0, TVal.num 1],
            lCleanup := some [c, c + 1],
            tNodeOutputs := some (some om),
            nextMap := [],
            wrappers := [{ id := c, tNodeIndex := env.tNodeIndex,
                           tNodeIsComponent := env.tNodeIsComponent, lViewId := env.lViewId,
                           inner := h, wrapWithPreventDefault := false }],
            freshId := c + 2,
            listens := [{ target := TargetArg.byRef env.native, eventName := ev, fn := c }],
            addEvents := [],
            subs := [] }) hall
      refine ⟨hgood.1, ?_⟩
      rw [hgood.2.1]
      simp [ensureLCleanup]
    · rw [if_neg hlen]
      simp only [Ne, Decidable.not_not, List.length_eq_zero] at hlen
      subst hlen
      simp [buildSubs]

/-- On the element node carrying the invariant state, a later install with
no resolver finds the natively registered wrapper `c` through the template
cleanup entry. -/
lemma findExistingListener_inv (env : InstallEnv) (ev : String) (c : Nat)
    (st : InstallState)
    (htc : st.tCleanup =
      some [TVal.str ev, TVal.num env.tNodeIndex, TVal.num 0, TVal.num 1])
    (hlc : st.lCleanup = some [c, c + 1]) :
    findExistingListener st.tCleanup st.lCleanup ev (env.tNodeIndex : Int) = some c := by
  rw [htc, hlc]
  simp [findExistingListener, findExistingListenerLoop]

/-- A later install of `hN` on an invariant state only links `hN` into the
coalesced chain: no listen call, no cleanup push, no new wrapper — the
resulting state differs from `st` exactly in the `__ngNextListenerFn__`
links, and the install throws nothing. -/
lemma listenerInternal_coalesce_step (env : InstallEnv) (ev : String) (c h1 hN : Nat)
    (tl : List Nat) (st : InstallState)
    (hE : env.tNodeType = TNodeType.Element) (hP : env.lViewProcedural = true)
    (hInv : listenerInvariant env ev c h1 tl st)
    (hcN : hN < c) (hnotin : hN ∉ tl) (hlt : ∀ x ∈ tl, x < c) :
    listenerInternal env ev hN false none none st =
      ({ st with nextMap :=
          setNext (setNext st.nextMap hN (getNext st.nextMap c)) c (some hN) }, none) ∧
    listenerInvariant env ev c h1 (tl ++ [hN])
      ({ st with nextMap :=
          setNext (setNext st.nextMap hN (getNext st.nextMap c)) c (some hN) }) := by
  obtain ⟨hftp, htc, hlc, hto, hw, hlis, hae, hsubs, hfresh, hchain⟩ := hInv
  have hassert : ¬ (env.ngDevMode = true ∧
      ¬ (env.tNodeType = TNodeType.Element ∨ env.tNodeType = TNodeType.Container ∨
        env.tNodeType = TNodeType.ElementContainer)) :=
    fun hc => hc.2 (Or.inl hE)
  have hfind := findExistingListener_inv env ev c st htc hlc
  constructor
  · simp only [listenerInternal]
    rw [if_neg (by simp [htc] : ¬ (st.firstTemplatePass = true ∧ st.tCleanup = none))]
    rw [if_neg hassert, if_pos hE]
    simp only [elementBlock, Option.getD_none]
    rw [show ensureLCleanup st = st from by simp [ensureLCleanup, hlc]]
    rw [hP]
    simp only [if_true, hfind]
    simp only [outputsBlock, hto]
  · refine ⟨hftp, htc, hlc, hto, hw, hlis, hae, hsubs, hfresh, ?_⟩
    have hsn : ∀ x, getNext (setNext (setNext st.nextMap hN (getNext st.nextMap c)) c
        (some hN)) x =
        if x = c then some hN
        else if x = hN then getNext st.nextMap c else getNext st.nextMap x := by
      intro x
      rw [getNext_setNext, getNext_setNext]
    rw [show (tl ++ [hN]).reverse = hN :: tl.reverse by simp]
    rw [hsn c, if_pos rfl]
    simp only [chainIs, decide_eq_true_eq]
    rw [Bool.and_eq_true]
    refine ⟨by simp, ?_⟩
    rw [hsn hN, if_neg (by omega : ¬ hN = c), if_pos rfl]
    rw [chainIs_congr tl.reverse st.nextMap _ ?_ (getNext st.nextMap c)]
    · exact hchain
    · intro x hx
      have hxtl : x ∈ tl := List.mem_reverse.mp hx
      rw [hsn x, if_neg (by have := hlt x hxtl; omega : ¬ x = c),
        if_neg (by rintro rfl; exact hnotin hxtl)]

/-- A first install on a fresh element/procedural state with no outputs on
the node: one native `listen` call, cleanup entries recorded, no error, and
the invariant established with an empty chain. -/
lemma listenerInternal_first_inv (env : InstallEnv) (ev : String) (h c : Nat)
    (hE : env.tNodeType = TNodeType.Element) (hP : env.lViewProcedural = true)
    (hG : env.genOutputs = none) :
    listenerInternal env ev h false none none (freshState c) =
      ({ firstTemplatePass := true,
         tCleanup := some [TVal.str ev, TVal.num env.tNodeIndex, TVal.num 0, TVal.num 1],
         lCleanup := some [c, c + 1],
         tNodeOutputs := some none,
         nextMap := [],
         wrappers := [{ id := c, tNodeIndex := env.tNodeIndex,
                        tNodeIsComponent := env.tNodeIsComponent, lViewId := env.lViewId,
                        inner := h, wrapWithPreventDefault := false }],
         freshId := c + 2,
         listens := [{ target := TargetArg.byRef env.native, eventName := ev, fn := c }],
         addEvents := [],
         subs := [] }, none) ∧
    listenerInvariant env ev c h []
      (listenerInternal env ev h false none none (freshState c)).1 := by
  have heq : listenerInternal env ev h false none none (freshState c) =
      ({ firstTemplatePass := true,
         tCleanup := some [TVal.str ev, TVal.num env.tNodeIndex, TVal.num 0, TVal.num 1],
         lCleanup := some [c, c + 1],
         tNodeOutputs := some none,
         nextMap := [],
         wrappers := [{ id := c, tNodeIndex := env.tNodeIndex,
                        tNodeIsComponent := env.tNodeIsComponent, lViewId := env.lViewId,
                        inner := h, wrapWithPreventDefault := false }],
         freshId := c + 2,
         listens := [{ target := TargetArg.byRef env.native, eventName := ev, fn := c }],
         addEvents := [],
         subs := [] }, none) := by
    rw [listenerInternal_first env ev h c hE hP]
    simp [outputsBlock, hG]
  refine ⟨heq, ?_⟩
  rw [heq]
  exact ⟨rfl, rfl, rfl, rfl, rfl, rfl, rfl, rfl, rfl, rfl⟩

/-- Installing further handlers on an invariant state keeps the invariant,
extending the chain by each new handler in turn and throwing nothing. -/
lemma installMany_inv (env : InstallEnv) (ev : String) (c h1 : Nat)
    (hE : env.tNodeType = TNodeType.Element) (hP : env.lViewProcedural = true) :
    ∀ (rest done : List Nat) (st : InstallState),
      listenerInvariant env ev c h1 done st →
      (∀ x ∈ done, x < c) → (∀ x ∈ rest, x < c) →
      (∀ x ∈ rest, x ∉ done) → rest.Nodup →
      (installMany env ev rest st).2 = none ∧
      listenerInvariant env ev c h1 (done ++ rest) (installMany env ev rest st).1 := by
  intro rest
  induction rest with
  | nil =>
    intro done st hInv hd hr hrd hnd
    simpa [installMany] using hInv
  | cons hN rest2 ih =>
    intro done st hInv hd hr hrd hnd
    have hstep := listenerInternal_coalesce_step env ev c h1 hN done st hE hP hInv
      (hr hN (by simp)) (hrd hN (by simp)) hd
    simp only [installMany, hstep.1]
    have hnext := ih (done ++ [hN]) _ hstep.2
      (by intro x hx
          rcases List.mem_append.mp hx with hx2 | hx2
          · exact hd x hx2
          · have hxeq : x = hN := by simpa using hx2
            rw [hxeq]
            exact hr hN (by simp))
      (fun x hx => hr x (by simp [hx]))
      (by intro x hx hmem
          rcases List.mem_append.mp hmem with hm | hm
          · exact hrd x (by simp [hx]) hm
          · have hxeq : x = hN := by simpa using hm
            rw [hxeq] at hx
            exact (List.nodup_cons.mp hnd).1 hx)
      (List.nodup_cons.mp hnd).2
    refine ⟨hnext.1, ?_⟩
    rw [show done ++ hN :: rest2 = (done ++ [hN]) ++ rest2 by simp]
    exact hnext.2

/-- Installing `h1 :: tl` (pairwise distinct, below the fresh-id floor) on
a fresh element/procedural state with no outputs: no error, and the
invariant — a single native listener wrapping `h1` plus the chain `tl`
(most recent first) — holds of the result. -/
lemma installMany_fresh_inv (env : InstallEnv) (ev : String) (c h1 : Nat) (tl : List Nat)
    (hE : env.tNodeType = TNodeType.Element) (hP : env.lViewProcedural = true)
    (hG : env.genOutputs = none)
    (hlt : ∀ x ∈ h1 :: tl, x < c) (hnd : (h1 :: tl).Nodup) :
    (installMany env ev (h1 :: tl) (freshState c)).2 = none ∧
    listenerInvariant env ev c h1 tl (installMany env ev (h1 :: tl) (freshState c)).1 := by
  have hfirst := listenerInternal_first_inv env ev h1 c hE hP hG
  have hInv0 : listenerInvariant env ev c h1 []
      (listenerInternal env ev h1 false none none (freshState c)).1 := hfirst.2
  simp only [installMany, hfirst.1]
  rw [hfirst.1] at hInv0
  have := installMany_inv env ev c h1 hE hP tl [] _ hInv0
    (by simp)
    (fun x hx => hlt x (by simp [hx]))
    (by simp)
    (List.nodup_cons.mp hnd).2
  simpa using this

/-- C1: on an element node with a procedural renderer and no target
resolver (and no outputs on the node), installing the distinct handlers
`h1 :: tl` for the same event name during one first construction pass makes
exactly one `renderer.listen` call — the one for the wrapper `c` created by
the first install — and every later install only links its handler into
the coalesced chain reachable from that natively registered head (the
invariant records: one listen call, one wrapper closing over `h1`, the
cleanup entries of the first install only, and the chain from `c` equal to
`tl` most-recently-installed first, so every installed handler is reachable
from the head: `h1` as its closure, the rest through the chain), with no
new native subscription ever made after the first. -/
theorem c1_single_native_subscription (env : InstallEnv) (ev : String) (c h1 : Nat)
    (tl : List Nat)
    (hE : env.tNodeType = TNodeType.Element) (hP : env.lViewProcedural = true)
    (hG : env.genOutputs = none)
    (hlt : ∀ x ∈ h1 :: tl, x < c) (hnd : (h1 :: tl).Nodup) :
    (installMany env ev (h1 :: tl) (freshState c)).2 = none ∧
    listenerInvariant env ev c h1 tl (installMany env ev (h1 :: tl) (freshState c)).1 :=
  installMany_fresh_inv env ev c h1 tl hE hP hG hlt hnd

/-- Invocations of one dispatch through the wrapped listener: the
closed-over handler first, then the chain, each exactly once. -/
lemma invokedOf_dispatch (w : WrapperRec) (m : List (Nat × Nat)) (b : Nat → HOutcome)
    (mop : Bool) (cv : Nat → Nat) (fuel : Nat) (hs : List Nat)
    (hchain : chainIs m (getNext m w.id) hs = true) (hf : hs.length ≤ fuel) :
    invokedOf (wrapListenerIn_markDirtyAndPreventDefault w m b mop cv fuel).2 =
      w.inner :: hs := by
  rw [dispatch_eq w m b mop cv fuel hs hchain hf]
  simp only [invokedOf, List.filterMap_append]
  rw [show (List.filterMap _ (chainEvents b w.lViewId (w.inner :: hs))) =
    invokedOf (chainEvents b w.lViewId (w.inner :: hs)) from rfl, invokedOf_chainEvents]
  rw [show (List.filterMap _ (if mop = true then [] else
      [Ev.mark (if w.tNodeIsComponent = true then cv w.tNodeIndex else w.lViewId)])) =
    invokedOf (if mop = true then [] else
      [Ev.mark (if w.tNodeIsComponent = true then cv w.tNodeIndex else w.lViewId)]) from rfl,
    invokedOf_markEvs]
  rw [show (List.filterMap _ (if w.wrapWithPreventDefault = true ∧
      lastResult b (w.inner :: hs) JSVal.jsUndefined = JSVal.jsFalse then
      [Ev.preventDefault, Ev.setReturnValueFalse] else [])) =
    invokedOf (if w.wrapWithPreventDefault = true ∧
      lastResult b (w.inner :: hs) JSVal.jsUndefined = JSVal.jsFalse then
      [Ev.preventDefault, Ev.setReturnValueFalse] else []) from rfl, invokedOf_pdEvs]
  simp

/-- C2 counterexample: bind handler 5 (H1) then handler 7 (H2) to the same
event on the same element (procedural renderer, no resolver); dispatching
one native event through the natively registered wrapper invokes H1 = 5
before H2 = 7 — the opposite of the claimed most-recently-bound-first
order, which predicts H2 before H1. -/
theorem c2_counterexample_dispatch_order :
    (installMany envElemProc "click" [5, 7] (freshState 10)).1.wrappers =
      [{ id := 10, tNodeIndex := 3, tNodeIsComponent := false, lViewId := 1, inner := 5,
         wrapWithPreventDefault := false }] ∧
    invokedOf (wrapListenerIn_markDirtyAndPreventDefault
      { id := 10, tNodeIndex := 3, tNodeIsComponent := false, lViewId := 1, inner := 5,
        wrapWithPreventDefault := false }
      (installMany envElemProc "click" [5, 7] (freshState 10)).1.nextMap
      (fun _ => HOutcome.ret JSVal.jsUndefined) false (fun _ => 99) 5).2 = [5, 7] ∧
    ([5, 7] : List Nat) ≠ [7, 5] := by
  decide

/-- C2 amended: for a coalesced chain built by binding the distinct
handlers `h1 :: tl` in order, one native dispatch invokes every handler
exactly once (the invocation list is a permutation of the bound handlers),
in the order: first-bound handler `h1` first (it is the head wrapper's own
closed-over handler), then the remaining handlers most-recently-bound
first — so binding H1 then H2 and dispatching invokes H1 before H2, not H2
before H1. -/
theorem c2_dispatch_order_amended (env : InstallEnv) (ev : String) (c h1 : Nat)
    (tl : List Nat)
    (hE : env.tNodeType = TNodeType.Element) (hP : env.lViewProcedural = true)
    (hG : env.genOutputs = none)
    (hlt : ∀ x ∈ h1 :: tl, x < c) (hnd : (h1 :: tl).Nodup)
    (b : Nat → HOutcome) (mop : Bool) (cv : Nat → Nat) (fuel : Nat)
    (hf : tl.length ≤ fuel) :
    ∀ w ∈ (installMany env ev (h1 :: tl) (freshState c)).1.wrappers,
      invokedOf (wrapListenerIn_markDirtyAndPreventDefault w
        (installMany env ev (h1 :: tl) (freshState c)).1.nextMap b mop cv fuel).2 =
        h1 :: tl.reverse ∧
      (h1 :: tl.reverse).Perm (h1 :: tl) := by
  intro w hw
  obtain ⟨hok, hftp, htc, hlc, hto, hwr, hlis, hae, hsubs, hfresh, hchain⟩ :=
    installMany_fresh_inv env ev c h1 tl hE hP hG hlt hnd
  rw [hwr] at hw
  simp only [List.mem_singleton] at hw
  subst hw
  constructor
  · exact invokedOf_dispatch _ _ b mop cv fuel tl.reverse hchain (by simpa using hf)
  · exact List.Perm.cons h1 (List.reverse_perm tl)

/-- Concrete environment: as `envElemProc` but with a non-procedural
(direct DOM) renderer. -/
def envNonProc : InstallEnv :=
  { envElemProc with lViewProcedural := false }

/-- Concrete environment: as `envElemOut` but in dev mode and with the
output property not observable. -/
def envBadOut : InstallEnv :=
  { envElemOut with
    ngDevMode := true,
    dirOutput := fun _ _ => { isObs := false, objId := 42 } }

/-- Concrete handler behavior where handler 5 throws and every other
handler returns `true`. -/
def behaviorThrow : Nat → HOutcome :=
  fun f => if f = 5 then HOutcome.thrown "boom" else HOutcome.ret JSVal.jsTrue

/-- C1 witness: the theorem applied to handlers 5 and 7 on a concrete
fresh element/procedural state. -/
theorem c1_single_native_subscription_witness :
    (installMany envElemProc "click" [5, 7] (freshState 10)).2 = none ∧
    listenerInvariant envElemProc "click" 10 5 [7]
      (installMany envElemProc "click" [5, 7] (freshState 10)).1 :=
  c1_single_native_subscription envElemProc "click" 10 5 [7] rfl rfl rfl
    (by decide) (by decide)

/-- C2 witness: the amended theorem applied to handlers 5 and 7 and the
wrapper the install created. -/
theorem c2_dispatch_order_amended_witness :
    invokedOf (wrapListenerIn_markDirtyAndPreventDefault
      { id := 10, tNodeIndex := 3, tNodeIsComponent := false, lViewId := 1, inner := 5,
        wrapWithPreventDefault := false }
      (installMany envElemProc "click" [5, 7] (freshState 10)).1.nextMap
      (fun _ => HOutcome.ret JSVal.jsUndefined) false (fun _ => 99) 3).2 =
      5 :: [7].reverse ∧
    ((5 : Nat) :: [7].reverse).Perm [5, 7] :=
  c2_dispatch_order_amended envElemProc "click" 10 5 [7] rfl rfl rfl (by decide)
    (by decide) (fun _ => HOutcome.ret JSVal.jsUndefined) false (fun _ => 99) 3
    (by decide) _ (by decide)

/-- C4 witness: the theorem applied to a concrete two-handler chain whose
head handler throws. -/
theorem c4_error_isolation_witness :
    invokedOf (wrapListenerIn_markDirtyAndPreventDefault
      { id := 10, tNodeIndex := 3, tNodeIsComponent := false, lViewId := 1, inner := 5,
        wrapWithPreventDefault := false } [(10, 7)] behaviorThrow false (fun _ => 99) 1).2 =
      5 :: [7] ∧
    errorsOf (wrapListenerIn_markDirtyAndPreventDefault
      { id := 10, tNodeIndex := 3, tNodeIsComponent := false, lViewId := 1, inner := 5,
        wrapWithPreventDefault := false } [(10, 7)] behaviorThrow false (fun _ => 99) 1).2 =
      routedErrors behaviorThrow 1 (5 :: [7]) ∧
    (wrapListenerIn_markDirtyAndPreventDefault
      { id := 10, tNodeIndex := 3, tNodeIsComponent := false, lViewId := 1, inner := 5,
        wrapWithPreventDefault := false } [(10, 7)] behaviorThrow false (fun _ => 99) 1).1 =
      lastResult behaviorThrow (5 :: [7]) JSVal.jsUndefined :=
  ⟨(c4_error_isolation
      { id := 10, tNodeIndex := 3, tNodeIsComponent := false, lViewId := 1, inner := 5,
        wrapWithPreventDefault := false } [(10, 7)] behaviorThrow false (fun _ => 99) 1 [7]
      (by decide) (by decide)).1,
   (c4_error_isolation
      { id := 10, tNodeIndex := 3, tNodeIsComponent := false, lViewId := 1, inner := 5,
        wrapWithPreventDefault := false } [(10, 7)] behaviorThrow false (fun _ => 99) 1 [7]
      (by decide) (by decide)).2.1,
   (c4_error_isolation
      { id := 10, tNodeIndex := 3, tNodeIsComponent := false, lViewId := 1, inner := 5,
        wrapWithPreventDefault := false } [(10, 7)] behaviorThrow false (fun _ => 99) 1 [7]
      (by decide) (by decide)).2.2.1⟩

/-- C5 witness: the install part of the theorem applied to a concrete
non-procedural install, whose single wrapper carries the suppression
flag. -/
theorem c5_prevent_default_witness :
    ({ id := 10, tNodeIndex := 3, tNodeIsComponent := false, lViewId := 1, inner := 5,
       wrapWithPreventDefault := true } : WrapperRec) ∈ (freshState 10).wrappers ∨
    ({ id := 10, tNodeIndex := 3, tNodeIsComponent := false, lViewId := 1, inner := 5,
       wrapWithPreventDefault := true } : WrapperRec).wrapWithPreventDefault =
      !((none : Option Bool).getD envNonProc.lViewProcedural) :=
  c5_prevent_default.2 envNonProc "click" 5 false none none (freshState 10)
    { id := 10, tNodeIndex := 3, tNodeIsComponent := false, lViewId := 1, inner := 5,
      wrapWithPreventDefault := true } (by decide)

/-- C6 witness: the amended theorem applied to a concrete fresh
element/procedural install with one observable output. -/
theorem c6_output_subscriptions_amended_witness :
    (listenerInternal envElemOut "click" 5 false none none (freshState 10)).2 = none ∧
    (listenerInternal envElemOut "click" 5 false none none (freshState 10)).1.subs =
      buildSubs envElemOut 10
        [{ dirIndex := 1, publicName := "click", minifiedName := "out" }] (10 + 2) :=
  c6_output_subscriptions_amended.2 envElemOut "click" 5 10
    [("click", [{ dirIndex := 1, publicName := "click", minifiedName := "out" }])]
    [{ dirIndex := 1, publicName := "click", minifiedName := "out" }]
    rfl rfl rfl (by decide) (by decide)

/-- C7 witness: the theorem applied to a concrete wrapper with no chain and
automatic change detection. -/
theorem c7_mark_before_invoke_witness :
    (wrapListenerIn_markDirtyAndPreventDefault
      { id := 10, tNodeIndex := 3, tNodeIsComponent := false, lViewId := 1, inner := 5,
        wrapWithPreventDefault := false } [] (fun _ => HOutcome.ret JSVal.jsUndefined)
      false (fun _ => 99) 0).2.head? = some (Ev.mark 1) ∧
    markedOf (wrapListenerIn_markDirtyAndPreventDefault
      { id := 10, tNodeIndex := 3, tNodeIsComponent := false, lViewId := 1, inner := 5,
        wrapWithPreventDefault := false } [] (fun _ => HOutcome.ret JSVal.jsUndefined)
      false (fun _ => 99) 0).2.tail = [] :=
  c7_mark_before_invoke
    { id := 10, tNodeIndex := 3, tNodeIsComponent := false, lViewId := 1, inner := 5,
      wrapWithPreventDefault := false } [] (fun _ => HOutcome.ret JSVal.jsUndefined)
    (fun _ => 99) 0 false rfl

/-- C8 witness: the theorem applied to a concrete dev-mode install whose
single matching output is not observable. -/
theorem c8_misconfigured_output_fails_fast_witness :
    subscribeOutputs envBadOut "click" 5
      ([] ++ ({ dirIndex := 1, publicName := "click", minifiedName := "out" } :
        OutputProp) :: []) (freshState 10) =
      ((subscribeOutputs envBadOut "click" 5 [] (freshState 10)).1,
        some ("@Output " ++ "out" ++ " not initialized in " ++
          envBadOut.dirCtorName 1 ++ ".")) ∧
    (subscribeOutputs envBadOut "click" 5 [] (freshState 10)).2 = none ∧
    (subscribeOutputs envBadOut "click" 5 [] (freshState 10)).1.subs =
      (freshState 10).subs ++ buildSubs envBadOut 5 [] (freshState 10).freshId :=
  c8_misconfigured_output_fails_fast envBadOut "click" 5 []
    { dirIndex := 1, publicName := "click", minifiedName := "out" } [] (freshState 10)
    rfl (by decide) (by decide) (by decide)

/-- Concrete environment: as `envBadOut` (misconfigured output) but
outside dev mode. -/
def envBadOutProd : InstallEnv :=
  { envBadOut with ngDevMode := false }

/-- C8 counterexample: outside dev mode, installing a listener whose event
name is claimed by a directive output that is not a subscribable stream
does not fail with the descriptive error identifying the offending
property and owning type — the dev-guarded `isObservable` check is
skipped, and the installation aborts with the plain `TypeError` raised by
calling `subscribe` on the non-observable value instead, refuting the
claim as stated unconditionally. -/
theorem c8_counterexample_prod_mode_typeerror :
    (listenerInternal envBadOutProd "click" 5 false none none (freshState 10)).2 =
      some "TypeError: output.subscribe is not a function" ∧
    "TypeError: output.subscribe is not a function" ≠
      "@Output " ++ "out" ++ " not initialized in " ++ envBadOutProd.dirCtorName 1 ++ "." := by
  decide

/-- C9 witness: the amended theorem applied to a concrete container-node
install. -/
theorem c9_native_attach_element_only_amended_witness :
    (listenerInternal envContainer "click" 5 false none none (freshState 10)).1.listens =
      (freshState 10).listens ∧
    (listenerInternal envContainer "click" 5 false none none
      (freshState 10)).1.addEvents = (freshState 10).addEvents ∧
    (listenerInternal envContainer "click" 5 false none none
      (freshState 10)).1.wrappers = (freshState 10).wrappers :=
  c9_native_attach_element_only_amended.1 envContainer "click" 5 false none none
    (freshState 10) (by decide)

/-- C10 witness: the theorem applied to a cleanup list with a listener
entry starting at index 2 (never found) and to one whose matching entry
records a not-yet-populated view-cleanup index (lookup returns null). -/
theorem c10_cleanup_scan_stride_witness :
    findExistingListener (some [TVal.fn 50, TVal.num 7, TVal.str "click", TVal.num 3,
      TVal.num 0, TVal.num 1]) (some [9, 11]) "click" 3 = none ∧
    findExistingListener (some [TVal.str "click", TVal.num 3, TVal.num 5, TVal.num 6])
      (some []) "click" 3 = none :=
  ⟨c10_cleanup_scan_stride.1 [TVal.fn 50, TVal.num 7, TVal.str "click", TVal.num 3,
      TVal.num 0, TVal.num 1] (some [9, 11]) "click" 3 (by decide),
   c10_cleanup_scan_stride.2 [TVal.str "click", TVal.num 3, TVal.num 5, TVal.num 6]
      (some []) "click" 3 0 5 (by decide) (by decide) (by decide) (by decide) (by decide)
      (by decide) (by decide)⟩

end NgListener
